import Mathlib

/-!
Verification development for the SSFS ("Simple Static File System") core:
a shallow embedding of `src/file_system/src/fs.c` and
`src/file_system/src/fs_helpers.c` (the linked pair; `helpers.c` is a
near-duplicate draft that is not part of the program, since it redefines the
same globals `fs.c` defines).

Machine integers are modelled as `Nat`/`Int` with explicit reductions
modulo 2^8 / 2^32 where the C code's `uint8_t`/`uint32_t` conversions matter,
and C `int` division/remainder is `Int.tdiv`/`Int.tmod` (truncation toward
zero).  Disk blocks are byte maps `Nat → Nat` (each byte reduced mod 256 on
read), matching the C code's `memcpy`-based codecs byte for byte, including
the three struct padding bytes of `inode_t`.
-/

namespace SSFS

/-- `uint32_t` reduction. -/
def u32 (n : Nat) : Nat := n % 4294967296

/-- Conversion of a `uint32_t` value to a C `int` (gcc wrap semantics). -/
def toInt32 (n : Nat) : Int :=
  if u32 n < 2147483648 then (u32 n : Int) else (u32 n : Int) - 4294967296

/-- Conversion of a C `int` to `uint32_t` (mod 2^32, always nonnegative). -/
def intToUint32 (i : Int) : Nat := (i % 4294967296).toNat

/-- Byte `k` of a 32-bit little-endian encoding of `v`. -/
def byteOfU32 (v k : Nat) : Nat := (v / 256 ^ k) % 256

/-- A 1024-byte disk block, as a byte map (bytes are read reduced mod 256). -/
def BlockData : Type := Nat → Nat

/-- The all-zeros block. -/
def zeroBlock : BlockData := fun _ => 0

/-- Little-endian `uint32_t` read at byte offset `off` of a block. -/
def le32 (b : BlockData) (off : Nat) : Nat :=
  b off % 256 + 256 * (b (off + 1) % 256) + 65536 * (b (off + 2) % 256) +
    16777216 * (b (off + 3) % 256)

/-- `memset(block + off, v, len)` on a block. -/
def setRange (b : BlockData) (off len v : Nat) : BlockData :=
  fun j => if off ≤ j ∧ j < off + len then v % 256 else b j

/-- `memcpy(block + off, data + src, len)` from a caller byte buffer. -/
def copyRange (b : BlockData) (off : Nat) (data : List Nat) (src len : Nat) :
    BlockData :=
  fun j => if off ≤ j ∧ j < off + len then data.getD (src + (j - off)) 0 % 256 else b j

/-- Modelled from the spec: the block-device collaborator (`vdisk`, §4.1/§6 of
the spec; `vdisk.h`/`vdisk.c` are not under `src/`).  A fixed array of
1024-byte sectors with per-block fault injection for `read_block` /
`write_block` and a fixed `sync` result, matching the 0-or-negative return
convention of the port contract. -/
structure VDisk where
  size_in_sectors : Nat
  blocks : Nat → BlockData
  readErr : Nat → Option Int
  writeErr : Nat → Option Int
  sync_res : Int

/-- Modelled from the spec: `read_block` — returns the block's bytes, or the
injected negative device error. -/
def vdisk_read (d : VDisk) (n : Nat) : Except Int BlockData :=
  match d.readErr n with
  | some e => .error e
  | none => .ok (d.blocks n)

/-- Modelled from the spec: `write_block` — block-atomic replacement of one
sector, or the injected negative device error. -/
def vdisk_write (d : VDisk) (n : Nat) (b : BlockData) : Except Int VDisk :=
  match d.writeErr n with
  | some e => .error e
  | none => .ok { d with blocks := fun m => if m = n then b else d.blocks m }

/-- Modelled from the spec: `sync` result code (0 on success). -/
def vdisk_sync (d : VDisk) : Int := d.sync_res

/-- The 16-byte SSFS magic constant (`MAGIC_NUMBER` in `fs.c`). -/
def MAGIC : List Nat :=
  [0xf0, 0x55, 0x4c, 0x49, 0x45, 0x47, 0x45, 0x49,
   0x4e, 0x46, 0x4f, 0x30, 0x39, 0x34, 0x30, 0x0f]

/-- `superblock_t` of `fs.c` (16-byte magic + three `uint32_t` fields). -/
structure Superblock where
  magic : List Nat
  num_blocks : Nat
  num_inode_blocks : Nat
  block_size : Nat

/-- `memcpy(&superblock, block_buffer, sizeof(superblock_t))`: decode the
28 semantic bytes of block 0 (little-endian fields). -/
def decodeSuperblock (b : BlockData) : Superblock :=
  { magic := (List.range 16).map fun k => b k % 256
    num_blocks := le32 b 16
    num_inode_blocks := le32 b 20
    block_size := le32 b 24 }

/-- The superblock's in-memory image copied into a zeroed 1024-byte buffer
(`memcpy(block_buffer, &sb, sizeof(superblock_t))` in `format`). -/
def encodeSuperblock (sb : Superblock) : BlockData := fun j =>
  if j < 16 then sb.magic.getD j 0 % 256
  else if j < 20 then byteOfU32 sb.num_blocks (j - 16)
  else if j < 24 then byteOfU32 sb.num_inode_blocks (j - 20)
  else if j < 28 then byteOfU32 sb.block_size (j - 24)
  else 0

/-- `inode_t` of `fs_helpers.h`.  The C struct has 3 padding bytes between
`valid` and `size`; `read_inode`/`write_inode` `memcpy` the full 32-byte
image, so the padding bytes round-trip through the struct and are modelled
explicitly (`pad1`-`pad3`). -/
structure Inode where
  valid : Nat
  pad1 : Nat
  pad2 : Nat
  pad3 : Nat
  size : Nat
  direct_blocks : List Nat
  indirect_block : Nat
  double_indirect_block : Nat
deriving DecidableEq

/-- Decode the 32-byte inode record at byte offset `off` of a block. -/
def decodeInode (b : BlockData) (off : Nat) : Inode :=
  { valid := b off % 256
    pad1 := b (off + 1) % 256
    pad2 := b (off + 2) % 256
    pad3 := b (off + 3) % 256
    size := le32 b (off + 4)
    direct_blocks := [le32 b (off + 8), le32 b (off + 12),
                      le32 b (off + 16), le32 b (off + 20)]
    indirect_block := le32 b (off + 24)
    double_indirect_block := le32 b (off + 28) }

/-- Byte `k` (0 ≤ k < 32) of the in-memory image of an `inode_t`. -/
def inodeByte (ino : Inode) (k : Nat) : Nat :=
  if k = 0 then ino.valid % 256
  else if k = 1 then ino.pad1 % 256
  else if k = 2 then ino.pad2 % 256
  else if k = 3 then ino.pad3 % 256
  else if k < 8 then byteOfU32 ino.size (k - 4)
  else if k < 24 then byteOfU32 (ino.direct_blocks.getD ((k - 8) / 4) 0) ((k - 8) % 4)
  else if k < 28 then byteOfU32 ino.indirect_block (k - 24)
  else byteOfU32 ino.double_indirect_block (k - 28)

/-- `memcpy(block + off, inode, INODE_SIZE)`: overwrite 32 bytes of a block
with the inode's image. -/
def encodeInode (b : BlockData) (off : Nat) (ino : Inode) : BlockData :=
  fun j => if off ≤ j ∧ j < off + 32 then inodeByte ino (j - off) else b j

/-- Modelled from the spec: the closed error taxonomy of §7 (`error.h` is not
under `src/`).  Only negativity and distinctness of the codes are fixed by
the spec; the concrete values are arbitrary.  `-100` is used in test states
as a pass-through device-port error. -/
def E_DISK_ALREADY_MOUNTED : Int := -1

/-- Modelled from the spec: see `E_DISK_ALREADY_MOUNTED`. -/
def E_DISK_NOT_MOUNTED : Int := -2

/-- Modelled from the spec: see `E_DISK_ALREADY_MOUNTED`. -/
def E_CORRUPT_DISK : Int := -3

/-- Modelled from the spec: see `E_DISK_ALREADY_MOUNTED`. -/
def E_OUT_OF_SPACE : Int := -4

/-- Modelled from the spec: see `E_DISK_ALREADY_MOUNTED`. -/
def E_OUT_OF_INODES : Int := -5

/-- Modelled from the spec: see `E_DISK_ALREADY_MOUNTED`. -/
def E_INVALID_INODE : Int := -6

/-- Modelled from the spec: see `E_DISK_ALREADY_MOUNTED`. -/
def E_INVALID_OFFSET : Int := -7

/-- The file-scope globals of `fs.c`: `disk_mounted`, `disk`, `superblock`,
`block_bitmap` (NULL ⟷ `none`), `mounted_disk` (NULL ⟷ `none`).
`device_open` tracks whether the `vdisk` handle held in the global `disk`
is open (`vdisk_on`/`vdisk_off`). -/
structure FSState where
  disk_mounted : Bool
  device_open : Bool
  disk : VDisk
  superblock : Superblock
  block_bitmap : Option (Nat → Nat)
  mounted_disk : Option (List Nat)

/-- `superblock.num_inode_blocks * INODES_PER_BLOCK` as the `uint32_t` value
the C comparisons use. -/
def maxInodes (s : FSState) : Nat := u32 (s.superblock.num_inode_blocks * 32)

/-- Read a bitmap entry through the (possibly NULL) `block_bitmap` pointer. -/
def bmGet (s : FSState) (b : Nat) : Nat :=
  match s.block_bitmap with
  | some bm => bm b
  | none => 0

/-- Store `v` into `block_bitmap[b]`. -/
def bmSet (s : FSState) (b v : Nat) : FSState :=
  { s with block_bitmap := s.block_bitmap.map fun bm => fun x => if x = b then v else bm x }

/-- `free_block` of `fs_helpers.c`: clear the bitmap entry if mounted and the
block number is positive (as a C `int`) and below `num_blocks`. -/
def free_block (s : FSState) (b : Nat) : FSState :=
  if s.disk_mounted ∧ 0 < b ∧ b < 2147483648 ∧ b < s.superblock.num_blocks then
    bmSet s b 0
  else s

/-- The scan of `find_free_block`: first index `i` with `block_bitmap[i] == 0`
in `[i, i + fuel)`, marking it used; `fuel` counts the remaining indices up to
`num_blocks`. -/
def findFreeLoop (s : FSState) (i : Nat) : Nat → Int × FSState
  | 0 => (E_OUT_OF_SPACE, s)
  | fuel + 1 =>
    if bmGet s i = 0 then ((i : Int), bmSet s i 1)
    else findFreeLoop s (i + 1) fuel

/-- `find_free_block` of `fs_helpers.c`: first-available scan from
`1 + num_inode_blocks` upward. -/
def find_free_block (s : FSState) : Int × FSState :=
  if !s.disk_mounted then (E_DISK_NOT_MOUNTED, s)
  else
    let first := 1 + s.superblock.num_inode_blocks
    findFreeLoop s first (s.superblock.num_blocks - first)

/-- `read_inode` of `fs_helpers.c`.  Note the mounted-state check: it refuses
with `E_DISK_NOT_MOUNTED` whenever `disk_mounted` is false — also when called
from `mount`'s reconstruction scan. -/
def read_inode (s : FSState) (inode_num : Int) : Except Int Inode :=
  if !s.disk_mounted then .error E_DISK_NOT_MOUNTED
  else if inode_num < 0 ∨ (maxInodes s : Int) ≤ inode_num then .error E_INVALID_INODE
  else
    let i := inode_num.toNat
    match vdisk_read s.disk (1 + i / 32) with
    | .error e => .error e
    | .ok blk => .ok (decodeInode blk ((i % 32) * 32))

/-- `write_inode` of `fs_helpers.c`: read-modify-write of the block holding
the 32-byte record. -/
def write_inode (s : FSState) (inode_num : Int) (ino : Inode) : Except Int FSState :=
  if !s.disk_mounted then .error E_DISK_NOT_MOUNTED
  else if inode_num < 0 ∨ (maxInodes s : Int) ≤ inode_num then .error E_INVALID_INODE
  else
    let i := inode_num.toNat
    match vdisk_read s.disk (1 + i / 32) with
    | .error e => .error e
    | .ok blk =>
      match vdisk_write s.disk (1 + i / 32) (encodeInode blk ((i % 32) * 32) ino) with
      | .error e => .error e
      | .ok d => .ok { s with disk := d }

/-- Write a `uint32_t` little-endian at byte offset `off` of a block
(the C stores through a `uint32_t *` view of the buffer). -/
def set32 (b : BlockData) (off v : Nat) : BlockData :=
  fun j => if off ≤ j ∧ j < off + 4 then byteOfU32 v (j - off) else b j

/-- The allocate-and-zero pattern repeated in `get_block_for_offset`:
`find_free_block`, zero-fill the fresh block on disk, undoing the bitmap
mark if the zeroing write fails. -/
def allocZeroed (s : FSState) : Except (Int × FSState) (Nat × FSState) :=
  let t := find_free_block s
  let nb := t.1
  let s := t.2
  if nb < 0 then .error (nb, s)
  else
    match vdisk_write s.disk nb.toNat zeroBlock with
    | .error e => .error (e, free_block s nb.toNat)
    | .ok d => .ok (nb.toNat, { s with disk := d })

/-- Direct branch of `get_block_for_offset` (`block_index < 4`). -/
def resolveDirect (s : FSState) (ino : Inode) (bi : Nat) (allocate : Bool) :
    Int × Inode × FSState :=
  if ino.direct_blocks.getD bi 0 = 0 ∧ allocate then
    match allocZeroed s with
    | .error (e, s) => (e, ino, s)
    | .ok (nb, s) =>
      let ino := { ino with direct_blocks := ino.direct_blocks.set bi nb }
      ((ino.direct_blocks.getD bi 0 : Nat), ino, s)
  else ((ino.direct_blocks.getD bi 0 : Nat), ino, s)

/-- Single-indirect branch of `get_block_for_offset`
(`bi2 = block_index - 4 < 256`). -/
def resolveIndirect (s : FSState) (ino : Inode) (bi2 : Nat) (allocate : Bool) :
    Int × Inode × FSState :=
  match (if ino.indirect_block = 0 then
           (if !allocate then .error none
            else match allocZeroed s with
                 | .error (e, s) => .error (some (e, s))
                 | .ok (nb, s) => .ok ({ ino with indirect_block := nb }, s))
         else .ok (ino, s) : Except (Option (Int × FSState)) (Inode × FSState)) with
  | .error none => (0, ino, s)
  | .error (some (e, s')) => (e, ino, s')
  | .ok (ino, s) =>
    match vdisk_read s.disk ino.indirect_block with
    | .error e => (e, ino, s)
    | .ok blk =>
      if le32 blk (4 * bi2) = 0 ∧ allocate then
        match allocZeroed s with
        | .error (e, s) => (e, ino, s)
        | .ok (nb, s) =>
          match vdisk_write s.disk ino.indirect_block (set32 blk (4 * bi2) nb) with
          | .error e => (e, ino, free_block s nb)
          | .ok d => ((nb : Nat), ino, { s with disk := d })
      else ((le32 blk (4 * bi2) : Nat), ino, s)

/-- Double-indirect branch of `get_block_for_offset`
(`bi3 = block_index - 260 < 65536`). -/
def resolveDouble (s : FSState) (ino : Inode) (bi3 : Nat) (allocate : Bool) :
    Int × Inode × FSState :=
  match (if ino.double_indirect_block = 0 then
           (if !allocate then .error none
            else match allocZeroed s with
                 | .error (e, s) => .error (some (e, s))
                 | .ok (nb, s) => .ok ({ ino with double_indirect_block := nb }, s))
         else .ok (ino, s) : Except (Option (Int × FSState)) (Inode × FSState)) with
  | .error none => (0, ino, s)
  | .error (some (e, s')) => (e, ino, s')
  | .ok (ino, s) =>
    match vdisk_read s.disk ino.double_indirect_block with
    | .error e => (e, ino, s)
    | .ok dblk =>
      let ii := bi3 / 256
      let ei := bi3 % 256
      match (if le32 dblk (4 * ii) = 0 ∧ allocate then
               match allocZeroed s with
               | .error (e, s) => .error (some (e, s))
               | .ok (nb, s) =>
                 match vdisk_write s.disk ino.double_indirect_block (set32 dblk (4 * ii) nb) with
                 | .error e => .error (some (e, free_block s nb))
                 | .ok d => .ok (nb, { s with disk := d })
             else if le32 dblk (4 * ii) = 0 then .error none
             else .ok (le32 dblk (4 * ii), s) :
             Except (Option (Int × FSState)) (Nat × FSState)) with
      | .error none => (0, ino, s)
      | .error (some (e, s')) => (e, ino, s')
      | .ok (q, s) =>
        match vdisk_read s.disk q with
        | .error e => (e, ino, s)
        | .ok iblk =>
          if le32 iblk (4 * ei) = 0 ∧ allocate then
            match allocZeroed s with
            | .error (e, s) => (e, ino, s)
            | .ok (nb, s) =>
              match vdisk_write s.disk q (set32 iblk (4 * ei) nb) with
              | .error e => (e, ino, free_block s nb)
              | .ok d => ((nb : Nat), ino, { s with disk := d })
          else ((le32 iblk (4 * ei) : Nat), ino, s)

/-- `get_block_for_offset` of `fs_helpers.c`: resolve (and with
`allocate = true` build) the physical block for a file byte offset.  Returns
the C function's `int` result together with the (possibly mutated) inode
struct and global state. -/
def get_block_for_offset (s : FSState) (ino : Inode) (offset : Int)
    (allocate : Bool) : Int × Inode × FSState :=
  if !s.disk_mounted then (E_DISK_NOT_MOUNTED, ino, s)
  else if offset < 0 then (E_INVALID_OFFSET, ino, s)
  else
    let L := offset.toNat / 1024
    if L < 4 then resolveDirect s ino L allocate
    else if L - 4 < 256 then resolveIndirect s ino (L - 4) allocate
    else if L - 260 < 65536 then resolveDouble s ino (L - 260) allocate
    else (E_INVALID_OFFSET, ino, s)

/-- The inode-block zeroing loop of `format` (blocks `i .. i + count - 1`). -/
def formatZeroLoop (d : VDisk) (i : Nat) : Nat → Except (Int × VDisk) VDisk
  | 0 => .ok d
  | count + 1 =>
    match vdisk_write d i zeroBlock with
    | .error e => .error (e, d)
    | .ok d' => formatZeroLoop d' (i + 1) count

/-- `format` of `fs.c`.  The `vdisk` handle is local, so only the device is
returned alongside the result code (`vdisk_on` is assumed to succeed). -/
def format (s : FSState) (d : VDisk) (inodes : Int) : Int × VDisk :=
  if s.disk_mounted then (E_DISK_ALREADY_MOUNTED, d)
  else
    let inodes := if inodes ≤ 0 then 1 else inodes
    let nib := ((inodes + 31).tdiv 32).toNat
    let nib := if nib = 0 then 1 else nib
    let total := d.size_in_sectors
    if total ≤ nib + 1 then (E_OUT_OF_SPACE, d)
    else
      let sb : Superblock :=
        { magic := MAGIC, num_blocks := u32 total,
          num_inode_blocks := u32 nib, block_size := 1024 }
      match vdisk_write d 0 (encodeSuperblock sb) with
      | .error e => (e, d)
      | .ok d =>
        match formatZeroLoop d 1 nib with
        | .error (e, d) => (e, d)
        | .ok d => if vdisk_sync d ≠ 0 then (vdisk_sync d, d) else (0, d)

/-- Mark the nonzero 32-bit entries of one pointer block used
(the inner `for (k = 0; k < POINTERS_PER_BLOCK; k++)` loops of `mount`). -/
def markEntries (s : FSState) (blk : BlockData) : FSState :=
  (List.range 256).foldl
    (fun s k => let p := le32 blk (4 * k); if p ≠ 0 then bmSet s p 1 else s) s

/-- One iteration of `mount`'s reconstruction scan: process inode slot `i`,
marking every block its tree references.  Aborts with the underlying error
on any failing read — including `read_inode`'s own mounted-state check. -/
def mountScanOne (s : FSState) (i : Nat) : Except Int FSState :=
  match read_inode s (i : Int) with
  | .error e => .error e
  | .ok ino =>
    if ino.valid ≠ 0 then
      let s := (List.range 4).foldl
        (fun s j => let p := ino.direct_blocks.getD j 0
                    if p ≠ 0 then bmSet s p 1 else s) s
      match (if ino.indirect_block ≠ 0 then
               match vdisk_read s.disk ino.indirect_block with
               | .error e => .error e
               | .ok blk => .ok (markEntries (bmSet s ino.indirect_block 1) blk)
             else .ok s : Except Int FSState) with
      | .error e => .error e
      | .ok s =>
        if ino.double_indirect_block ≠ 0 then
          match vdisk_read s.disk ino.double_indirect_block with
          | .error e => .error e
          | .ok dblk =>
            (List.range 256).foldlM
              (fun (s : FSState) j =>
                let p := le32 dblk (4 * j)
                if p ≠ 0 then
                  match vdisk_read s.disk p with
                  | .error e => Except.error e
                  | .ok iblk => Except.ok (markEntries (bmSet s p 1) iblk)
                else Except.ok s)
              (bmSet s ino.double_indirect_block 1)
        else .ok s
    else .ok s

/-- `mount` of `fs.c`: open the device, validate the magic, allocate the
bitmap, run the reconstruction scan, store the name, mark mounted.  (The
`calloc`/`malloc` of the bitmap and name are assumed to succeed.) -/
def mount (s : FSState) (name : List Nat) (d : VDisk) : Int × FSState :=
  if s.disk_mounted then (E_DISK_ALREADY_MOUNTED, s)
  else
    let s := { s with device_open := true, disk := d }
    match vdisk_read d 0 with
    | .error e => (e, { s with device_open := false })
    | .ok blk =>
      let sb := decodeSuperblock blk
      let s := { s with superblock := sb }
      if sb.magic ≠ MAGIC then (E_CORRUPT_DISK, { s with device_open := false })
      else
        let s := { s with block_bitmap := some fun _ => 0 }
        let s := (List.range (sb.num_inode_blocks + 1)).foldl (fun s b => bmSet s b 1) s
        match (List.range (maxInodes s)).foldlM mountScanOne s with
        | .error e => (e, { s with block_bitmap := none, device_open := false })
        | .ok s => (0, { s with mounted_disk := some name, disk_mounted := true })

/-- `unmount` of `fs.c`. -/
def unmount (s : FSState) : Int × FSState :=
  if !s.disk_mounted then (E_DISK_NOT_MOUNTED, s)
  else
    let result := vdisk_sync s.disk
    let s := { s with block_bitmap := none, mounted_disk := none,
                      device_open := false, disk_mounted := false }
    if result = 0 then (0, s) else (result, s)

/-- The initialisation `create` applies to a free slot: `valid=1`, `size=0`,
all six pointers 0 (the struct's padding bytes are whatever `read_inode`
loaded). -/
def freshInode (a : Inode) : Inode :=
  { a with valid := 1, size := 0, direct_blocks := [0, 0, 0, 0],
           indirect_block := 0, double_indirect_block := 0 }

/-- `create`'s scan over inode slots `i, i+1, ...` (`fuel` counts the
remaining slots below `max_inodes`). -/
def createLoop (s : FSState) (i : Nat) : Nat → Int × FSState
  | 0 => (E_OUT_OF_INODES, s)
  | fuel + 1 =>
    match read_inode s (i : Int) with
    | .error e => (e, s)
    | .ok ino =>
      if ino.valid = 0 then
        match write_inode s (i : Int) (freshInode ino) with
        | .error e => (e, s)
        | .ok s' => ((i : Int), s')
      else createLoop s (i + 1) fuel

/-- `create` of `fs.c`. -/
def create (s : FSState) : Int × FSState :=
  if !s.disk_mounted then (E_DISK_NOT_MOUNTED, s)
  else createLoop s 0 (toInt32 (maxInodes s)).toNat

/-- One iteration of `delete`'s direct-block loop: free slot `k` if nonzero
and zero it in the struct. -/
def freeDirectStep (p : Inode × FSState) (k : Nat) : Inode × FSState :=
  if p.1.direct_blocks.getD k 0 ≠ 0 then
    ({ p.1 with direct_blocks := p.1.direct_blocks.set k 0 },
      free_block p.2 (p.1.direct_blocks.getD k 0))
  else p

/-- `delete` step 5: free the nonzero direct blocks and zero their slots. -/
def deleteFreeDirects (s : FSState) (ino : Inode) : Inode × FSState :=
  (List.range 4).foldl freeDirectStep (ino, s)

/-- Free every nonzero entry of a pointer block (`delete`'s inner loops). -/
def freeEntries (s : FSState) (blk : BlockData) : FSState :=
  (List.range 256).foldl
    (fun s k => let p := le32 blk (4 * k); if p ≠ 0 then free_block s p else s) s

/-- `delete` step 6: free the single-indirect tree.  A failing read returns
the device error with the bitmap mutations made so far kept. -/
def deleteIndirect (s : FSState) (ino : Inode) :
    Except (Int × FSState) (Inode × FSState) :=
  if ino.indirect_block ≠ 0 then
    match vdisk_read s.disk ino.indirect_block with
    | .error e => .error (e, s)
    | .ok blk =>
      let s := freeEntries s blk
      let s := free_block s ino.indirect_block
      .ok ({ ino with indirect_block := 0 }, s)
  else .ok (ino, s)

/-- `delete` step 7: free the double-indirect tree. -/
def deleteDouble (s : FSState) (ino : Inode) :
    Except (Int × FSState) (Inode × FSState) :=
  if ino.double_indirect_block ≠ 0 then
    match vdisk_read s.disk ino.double_indirect_block with
    | .error e => .error (e, s)
    | .ok dblk =>
      match (List.range 256).foldlM
          (fun (s : FSState) j =>
            let p := le32 dblk (4 * j)
            if p ≠ 0 then
              match vdisk_read s.disk p with
              | .error e => Except.error (e, s)
              | .ok iblk => Except.ok (free_block (freeEntries s iblk) p)
            else Except.ok s)
          s with
      | .error es => .error es
      | .ok s =>
        let s := free_block s ino.double_indirect_block
        .ok ({ ino with double_indirect_block := 0 }, s)
  else .ok (ino, s)

/-- `delete` of `fs.c`. -/
def delete (s : FSState) (inode_num : Int) : Int × FSState :=
  if !s.disk_mounted then (E_DISK_NOT_MOUNTED, s)
  else if inode_num < 0 ∨ (maxInodes s : Int) ≤ inode_num then (E_INVALID_INODE, s)
  else
    match read_inode s inode_num with
    | .error e => (e, s)
    | .ok ino =>
      if ino.valid = 0 then (E_INVALID_INODE, s)
      else
        let p := deleteFreeDirects s ino
        match deleteIndirect p.2 p.1 with
        | .error (e, s) => (e, s)
        | .ok (ino, s) =>
          match deleteDouble s ino with
          | .error (e, s) => (e, s)
          | .ok (ino, s) =>
            match write_inode s inode_num { ino with valid := 0, size := 0 } with
            | .error e => (e, s)
            | .ok s' => (0, s')

/-- `stat` of `fs.c` (the `uint32_t` size is returned through `int`). -/
def stat (s : FSState) (inode_num : Int) : Int :=
  if !s.disk_mounted then E_DISK_NOT_MOUNTED
  else if inode_num < 0 ∨ (maxInodes s : Int) ≤ inode_num then E_INVALID_INODE
  else
    match read_inode s inode_num with
    | .error e => e
    | .ok ino => if ino.valid = 0 then E_INVALID_INODE else toInt32 ino.size

/-- The block-by-block copy loop of `read`.  The caller's buffer is modelled
as the list of bytes copied so far (`acc`); `fuel ≥ bytes_to_read` bounds the
iteration count (each pass copies at least one byte or exits). -/
def readLoop (btr : Int) :
    Nat → FSState → Inode → Int → Int → List Nat → Int × List Nat
  | 0, _, _, bytesRead, _, acc => (bytesRead, acc)
  | fuel + 1, s, ino, bytesRead, curOff, acc =>
    if bytesRead < btr then
      let blockOff := Int.tmod curOff 1024
      match get_block_for_offset s ino curOff false with
      | (bn, ino, s) =>
        if bn ≤ 0 then (bytesRead, acc)
        else
          match vdisk_read s.disk bn.toNat with
          | .error e => (if bytesRead > 0 then bytesRead else e, acc)
          | .ok blk =>
            let btc := min (1024 - blockOff) (btr - bytesRead)
            readLoop btr fuel s ino (bytesRead + btc) (curOff + btc)
              (acc ++ (List.range btc.toNat).map fun k => blk (blockOff.toNat + k) % 256)
    else (bytesRead, acc)

/-- `read` of `fs.c`.  Returns the `int` result and the bytes copied into the
caller's buffer (`read` never mutates the globals: it resolves with
`allocate = false`). -/
def read (s : FSState) (inode_num : Int) (len offset : Int) : Int × List Nat :=
  if !s.disk_mounted then (E_DISK_NOT_MOUNTED, [])
  else if inode_num < 0 ∨ (maxInodes s : Int) ≤ inode_num then (E_INVALID_INODE, [])
  else
    match read_inode s inode_num with
    | .error e => (e, [])
    | .ok ino =>
      if ino.valid = 0 then (E_INVALID_INODE, [])
      else
        let btr : Int :=
          if intToUint32 offset < ino.size then
            let t := toInt32 (ino.size - intToUint32 offset)
            if t > len then len else t
          else 0
        if btr ≤ 0 then (0, [])
        else readLoop btr btr.toNat s ino 0 offset []

/-- The unconditional inode checkpoint of `write`'s sparse-fill error paths:
raise `size` to `curr` if larger, `write_inode` ignoring its result. -/
def fillCheckpoint (s : FSState) (inum : Int) (ino : Inode) (curr : Int) : FSState :=
  let ino := if intToUint32 curr > ino.size then { ino with size := intToUint32 curr } else ino
  match write_inode s inum ino with
  | .error _ => s
  | .ok s' => s'

/-- The conditional inode checkpoint of `write`'s data-phase exits:
persist only when `current_offset` exceeds the in-memory size. -/
def dataCheckpoint (s : FSState) (inum : Int) (ino : Inode) (curr : Int) : FSState :=
  if intToUint32 curr > ino.size then
    match write_inode s inum { ino with size := intToUint32 curr } with
    | .error _ => s
    | .ok s' => s'
  else s

/-- The sparse-fill loop of `write` (step 5): zero `[curr, fillEnd)` block by
block, allocating on demand.  `.error` carries the early-return code and the
state after the checkpoint. -/
def fillLoop (inum : Int) (fillEnd : Int) :
    Nat → FSState → Inode → Int → Except (Int × FSState) (Inode × FSState)
  | 0, s, ino, _ => .ok (ino, s)
  | fuel + 1, s, ino, curr =>
    if curr < fillEnd then
      let blockOff := Int.tmod curr 1024
      match get_block_for_offset s ino curr true with
      | (bn, ino, s) =>
        if bn ≤ 0 then .error (bn, fillCheckpoint s inum ino curr)
        else
          let btf := min (1024 - blockOff) (fillEnd - curr)
          match (if blockOff > 0 ∨ btf < 1024 then vdisk_read s.disk bn.toNat
                 else .ok zeroBlock) with
          | .error e => .error (e, fillCheckpoint s inum ino curr)
          | .ok blk =>
            match vdisk_write s.disk bn.toNat
                (setRange blk blockOff.toNat btf.toNat 0) with
            | .error e => .error (e, fillCheckpoint s inum ino curr)
            | .ok d => fillLoop inum fillEnd fuel { s with disk := d } ino (curr + btf)
    else .ok (ino, s)

/-- The data-phase loop of `write` (step 6).  `.error` carries the
early-return value and state; `.ok` carries `bytes_written`,
`current_offset`, the in-memory inode and the state at normal exit. -/
def dataLoop (inum : Int) (data : List Nat) (len : Int) :
    Nat → FSState → Inode → Int → Int →
    Except (Int × FSState) (Int × Int × Inode × FSState)
  | 0, s, ino, bw, curOff => .ok (bw, curOff, ino, s)
  | fuel + 1, s, ino, bw, curOff =>
    if bw < len then
      let blockOff := Int.tmod curOff 1024
      match get_block_for_offset s ino curOff true with
      | (bn, ino, s) =>
        if bn ≤ 0 then
          .error ((if bw > 0 then bw else bn), dataCheckpoint s inum ino curOff)
        else
          let btw := min (1024 - blockOff) (len - bw)
          match (if blockOff > 0 ∨ btw < 1024 then vdisk_read s.disk bn.toNat
                 else .ok zeroBlock) with
          | .error e =>
            .error ((if bw > 0 then bw else e),
                    (if bw > 0 then dataCheckpoint s inum ino curOff else s))
          | .ok blk =>
            match vdisk_write s.disk bn.toNat
                (copyRange blk blockOff.toNat data bw.toNat btw.toNat) with
            | .error e =>
              .error ((if bw > 0 then bw else e),
                      (if bw > 0 then dataCheckpoint s inum ino curOff else s))
            | .ok d => dataLoop inum data len fuel { s with disk := d } ino (bw + btw) (curOff + btw)
    else .ok (bw, curOff, ino, s)

/-- `write` of `fs.c`: sparse-fill phase, data phase, final size update. -/
def write (s : FSState) (inode_num : Int) (data : List Nat) (len offset : Int) :
    Int × FSState :=
  if !s.disk_mounted then (E_DISK_NOT_MOUNTED, s)
  else if inode_num < 0 ∨ (maxInodes s : Int) ≤ inode_num then (E_INVALID_INODE, s)
  else
    match read_inode s inode_num with
    | .error e => (e, s)
    | .ok ino =>
      if ino.valid = 0 then (E_INVALID_INODE, s)
      else
        match (if intToUint32 offset > ino.size then
                 match fillLoop inode_num offset (offset - toInt32 ino.size).toNat
                     s ino (toInt32 ino.size) with
                 | .error es => .error es
                 | .ok (ino, s) => .ok ({ ino with size := intToUint32 offset }, s)
               else .ok (ino, s) : Except (Int × FSState) (Inode × FSState)) with
        | .error (e, s) => (e, s)
        | .ok (ino, s) =>
          match dataLoop inode_num data len len.toNat s ino 0 offset with
          | .error (r, s) => (r, s)
          | .ok (bw, curOff, ino, s) =>
            if intToUint32 curOff > ino.size then
              match write_inode s inode_num { ino with size := intToUint32 curOff } with
              | .error _ => (bw, s)
              | .ok s' => (bw, s')
            else (bw, s)

/-! ### Invariant I4 and well-formedness predicates -/

/-- The inode record stored at slot `i` of the on-disk inode table. -/
def inodeAt (d : VDisk) (i : Nat) : Inode :=
  decodeInode (d.blocks (1 + i / 32)) ((i % 32) * 32)

/-- Entry `k` of the pointer block `blk` (by on-disk content). -/
def entryAt (d : VDisk) (blk k : Nat) : Nat := le32 (d.blocks blk) (4 * k)

/-- `b` is a pointer reachable from the inode `ino`'s tree (spec §3, I4):
a nonzero direct pointer, the indirect block or a nonzero entry in it, or the
double-indirect block, one of its nonzero interior pointers, or a leaf entry. -/
def ptrReach (d : VDisk) (ino : Inode) (b : Nat) : Bool :=
  b != 0 &&
  ((List.range 4).any (fun k => ino.direct_blocks.getD k 0 == b) ||
   (ino.indirect_block != 0 &&
     (ino.indirect_block == b ||
      (List.range 256).any fun k => entryAt d ino.indirect_block k == b)) ||
   (ino.double_indirect_block != 0 &&
     (ino.double_indirect_block == b ||
      (List.range 256).any fun j =>
        let p := entryAt d ino.double_indirect_block j
        p != 0 && (p == b || (List.range 256).any fun k => entryAt d p k == b))))

/-- `b` is reachable from some valid inode of the mounted volume. -/
def reachableB (s : FSState) (b : Nat) : Bool :=
  (List.range (maxInodes s)).any fun i =>
    (inodeAt s.disk i).valid != 0 && ptrReach s.disk (inodeAt s.disk i) b

/-- Invariant I4 (spec §3): the bitmap's used set equals
`{0..num_inode_blocks} ∪ {pointers reachable from valid inodes}`. -/
def I4holds (s : FSState) : Prop :=
  ∀ b < s.superblock.num_blocks,
    (bmGet s b != 0) =
      (decide (b ≤ s.superblock.num_inode_blocks) || reachableB s b)

instance : DecidablePred I4holds := fun s =>
  inferInstanceAs (Decidable (∀ b < s.superblock.num_blocks, _))

/-- The device's injected error codes follow the port convention
(negative on failure). -/
def VDiskWf (d : VDisk) : Prop :=
  (∀ n e, d.readErr n = some e → e < 0) ∧ (∀ n e, d.writeErr n = some e → e < 0)

/-- The bitmap is allocated and marks the metadata region
`{0..num_inode_blocks}` used (part of invariant I4 every mounted state has). -/
def BitmapWf (s : FSState) : Prop :=
  s.block_bitmap.isSome = true ∧
    ∀ b, b ≤ s.superblock.num_inode_blocks → bmGet s b ≠ 0

/-- Each direct pointer is 0 or points into the data region (invariant I1
restricted to the direct slots). -/
def DirectsSafe (nib : Nat) (ino : Inode) : Prop :=
  ∀ k, ino.direct_blocks.getD k 0 = 0 ∨ nib < ino.direct_blocks.getD k 0

/-! ### Concrete states used by counterexamples and witnesses -/

/-- A pristine device of `n` zeroed sectors with no injected faults. -/
def cleanDisk (n : Nat) : VDisk :=
  { size_in_sectors := n, blocks := fun _ => zeroBlock,
    readErr := fun _ => none, writeErr := fun _ => none, sync_res := 0 }

/-- The process state before any successful `mount` (the `fs.c` globals'
initial values). -/
def initState : FSState :=
  { disk_mounted := false, device_open := false, disk := cleanDisk 0,
    superblock := { magic := [], num_blocks := 0, num_inode_blocks := 0, block_size := 0 },
    block_bitmap := none, mounted_disk := none }

/-- A mounted-volume state over device `d` with `num_inode_blocks = nib` and
bitmap `bm` (what a successful `mount` would global-wise produce). -/
def mkMounted (d : VDisk) (nib : Nat) (bm : Nat → Nat) : FSState :=
  { disk_mounted := true, device_open := true, disk := d,
    superblock := { magic := MAGIC, num_blocks := d.size_in_sectors,
                    num_inode_blocks := nib, block_size := 1024 },
    block_bitmap := some bm, mounted_disk := some [100] }

/-- Inode-table block holding a single valid, empty inode in slot 0. -/
def tblBlock0 : BlockData := fun j => if j = 0 then 1 else 0

/-- 8-sector device: superblock region unused by the operations under test,
one inode block (slot 0 valid and empty), five free data blocks. -/
def dPlain : VDisk :=
  { size_in_sectors := 8, blocks := fun n => if n = 1 then tblBlock0 else zeroBlock,
    readErr := fun _ => none, writeErr := fun _ => none, sync_res := 0 }

/-- Mounted state over `dPlain`. -/
def sPlain : FSState := mkMounted dPlain 1 fun b => if b ≤ 1 then 1 else 0

/-- The state after writing 25 capital-A bytes at offset 0 into inode 0 of
`sPlain` (block 2 gets allocated and filled). -/
def sData : FSState := (write sPlain 0 (List.replicate 30 65) 25 0).snd

/-- Inode-table block for the `delete`-failure scenario: slot 0 is valid with
`direct_blocks[0] = 2` and `indirect_block = 3`. -/
def tblBlockC4 : BlockData := fun j =>
  if j = 0 then 1 else if j = 8 then 2 else if j = 24 then 3 else 0

/-- Device for the `delete`-failure scenario: reading block 3 (the indirect
block) fails with the device error `-100`. -/
def dC4 : VDisk :=
  { size_in_sectors := 8, blocks := fun n => if n = 1 then tblBlockC4 else zeroBlock,
    readErr := fun n => if n = 3 then some (-100) else none,
    writeErr := fun _ => none, sync_res := 0 }

/-- Mounted state for the `delete`-failure scenario; blocks 0-3 are used
(metadata plus the two reachable pointers), so I4 holds. -/
def sC4 : FSState := mkMounted dC4 1 fun b => if b ≤ 3 then 1 else 0

/-- Block 0 of a device whose superblock has a valid magic but
`block_size = 512` and `num_inode_blocks = 0`. -/
def sbBlockC2 : BlockData := fun j =>
  if j < 16 then MAGIC.getD j 0
  else if j = 16 then 4  -- num_blocks = 4
  else if j = 24 then 0  -- block_size low byte
  else if j = 25 then 2  -- block_size = 512
  else 0

/-- Device with valid magic and `block_size = 512`. -/
def dC2 : VDisk :=
  { size_in_sectors := 4, blocks := fun n => if n = 0 then sbBlockC2 else zeroBlock,
    readErr := fun _ => none, writeErr := fun _ => none, sync_res := 0 }

/-- Device whose block 0 does not begin with the magic. -/
def dBadMagic : VDisk := cleanDisk 4

/-- Replace block `n` of the mounted device (the state after a successful
`vdisk_write` through the global `disk`). -/
def putBlock (s : FSState) (n : Nat) (b : BlockData) : FSState :=
  { s with disk := { s.disk with blocks := fun m => if m = n then b else s.disk.blocks m } }

/-- All fields small enough that the 32-byte image decodes back unchanged
(true of every inode that came out of `decodeInode`). -/
def InodeReduced (ino : Inode) : Prop :=
  ino.valid < 256 ∧ ino.pad1 < 256 ∧ ino.pad2 < 256 ∧ ino.pad3 < 256 ∧
  ino.size < 4294967296 ∧
  (∃ a0 a1 a2 a3, ino.direct_blocks = [a0, a1, a2, a3] ∧
    a0 < 4294967296 ∧ a1 < 4294967296 ∧ a2 < 4294967296 ∧ a3 < 4294967296) ∧
  ino.indirect_block < 4294967296 ∧ ino.double_indirect_block < 4294967296

/-- The inode blocks (1 .. `num_inode_blocks`) have no injected device
faults, so `read_inode`/`write_inode` on in-range slots succeed. -/
def TableClean (s : FSState) : Prop :=
  ∀ bblk, 1 ≤ bblk → bblk ≤ s.superblock.num_inode_blocks →
    s.disk.readErr bblk = none ∧ s.disk.writeErr bblk = none

/-- The inode capacity fits a C `int` (sane formatted geometry). -/
def SaneGeometry (s : FSState) : Prop :=
  s.superblock.num_inode_blocks * 32 < 2147483648

/-- What the sparse-fill phase may not touch: the mounted flag, the
superblock, the fault configuration, and every block of the metadata region
(superblock + inode table). -/
def FillFrame (nib : Nat) (s s' : FSState) : Prop :=
  s'.disk_mounted = s.disk_mounted ∧ s'.superblock = s.superblock ∧
  s'.disk.readErr = s.disk.readErr ∧ s'.disk.writeErr = s.disk.writeErr ∧
  ∀ b, b ≤ nib → s'.disk.blocks b = s.disk.blocks b

/-- Each direct pointer is 0 or beyond the metadata region, and the pointer
array has the decoded four-entry shape. -/
def DirectsOK (nib : Nat) (ino : Inode) : Prop :=
  ∃ a0 a1 a2 a3, ino.direct_blocks = [a0, a1, a2, a3] ∧
    (a0 = 0 ∨ nib < a0) ∧ (a1 = 0 ∨ nib < a1) ∧
    (a2 = 0 ∨ nib < a2) ∧ (a3 = 0 ∨ nib < a3)

/-- Soundness of one run of the sparse-fill loop relative to a base state:
a normal exit stays inside the fill frame, an early return carries a
negative code. -/
def FillGood (nib : Nat) (s : FSState) :
    Except (Int × FSState) (Inode × FSState) → Prop
  | .ok (_, s₂) => FillFrame nib s s₂
  | .error (e, _) => e < 0

/-! ### Basic lemmas -/

theorem intToUint32_eq {i : Int} (h0 : 0 ≤ i) (h1 : i < 4294967296) :
    intToUint32 i = i.toNat := by
  unfold intToUint32
  rw [Int.emod_eq_of_lt h0 h1]

theorem toInt32_eq {n : Nat} (h : n < 2147483648) : toInt32 n = (n : Int) := by
  unfold toInt32 u32
  simp only [Nat.mod_eq_of_lt (show n < 4294967296 by omega), if_pos h]

theorem read_inode_ok {s : FSState} {i : Int} (hm : s.disk_mounted = true)
    (h0 : 0 ≤ i) (hlt : i < (maxInodes s : Int))
    (he : s.disk.readErr (1 + i.toNat / 32) = none) :
    read_inode s i = .ok (inodeAt s.disk i.toNat) := by
  unfold read_inode vdisk_read
  rw [hm]
  simp only [Bool.not_true, Bool.false_eq_true, if_false]
  rw [if_neg (by omega)]
  simp only [he]
  rfl

theorem write_inode_ok {s : FSState} {i : Int} {ino : Inode} (hm : s.disk_mounted = true)
    (h0 : 0 ≤ i) (hlt : i < (maxInodes s : Int))
    (he : s.disk.readErr (1 + i.toNat / 32) = none)
    (hw : s.disk.writeErr (1 + i.toNat / 32) = none) :
    write_inode s i ino =
      .ok (putBlock s (1 + i.toNat / 32)
        (encodeInode (s.disk.blocks (1 + i.toNat / 32)) ((i.toNat % 32) * 32) ino)) := by
  unfold write_inode vdisk_read vdisk_write
  rw [if_neg (show ¬((!s.disk_mounted) = true) by simp [hm])]
  rw [if_neg (by omega)]
  simp only [he, hw]
  rfl

theorem bmGet_free_block_zero {s : FSState} {x : Nat} (h : bmGet s x = 0) (d : Nat) :
    bmGet (free_block s d) x = 0 := by
  unfold free_block
  split
  · unfold bmGet at h
    unfold bmGet bmSet
    cases hbm : s.block_bitmap with
    | none => rfl
    | some bm =>
      rw [hbm] at h
      show (if x = d then 0 else bm x) = 0
      split
      · rfl
      · exact h
  · exact h

theorem list_range_one : List.range 1 = [0] := rfl

theorem foldl_bmSet_range_one (st : FSState) :
    List.foldl (fun s b => bmSet s b 1) st (List.range 1) = bmSet st 0 1 := rfl

theorem free_block_frame (s : FSState) (d : Nat) :
    (free_block s d).disk = s.disk ∧ (free_block s d).superblock = s.superblock ∧
      (free_block s d).disk_mounted = s.disk_mounted := by
  unfold free_block bmSet
  split
  · exact ⟨rfl, rfl, rfl⟩
  · exact ⟨rfl, rfl, rfl⟩

/-! ### Claim theorems: lifecycle (C8, C2, C1) -/

/-- Claim C8: `mount` on an already-mounted volume returns
`DiskAlreadyMounted` leaving the state untouched; `unmount` while unmounted
returns `DiskNotMounted`; a successful `unmount` releases the bitmap and the
name buffer, closes the device, marks the volume unmounted, and returns 0
when the device sync succeeds and the sync's error code otherwise. -/
theorem C8_mount_unmount_guards (s : FSState) (name : List Nat) (d : VDisk) :
    (s.disk_mounted = true → mount s name d = (E_DISK_ALREADY_MOUNTED, s)) ∧
    (s.disk_mounted = false → unmount s = (E_DISK_NOT_MOUNTED, s)) ∧
    (s.disk_mounted = true →
      unmount s = ((if vdisk_sync s.disk = 0 then 0 else vdisk_sync s.disk),
        { s with block_bitmap := none, mounted_disk := none,
                 device_open := false, disk_mounted := false })) := by
  refine ⟨fun h => ?_, fun h => ?_, fun h => ?_⟩
  · unfold mount; rw [h]; rfl
  · unfold unmount; rw [h]; rfl
  · unfold unmount; rw [h]
    simp only [Bool.not_true, Bool.false_eq_true, if_false]
    split <;> simp_all

/-- Witness for C8 at concrete states. -/
theorem C8_mount_unmount_guards_witness :
    mount sPlain [1] dPlain = (E_DISK_ALREADY_MOUNTED, sPlain) ∧
    unmount initState = (E_DISK_NOT_MOUNTED, initState) ∧
    (unmount sPlain).fst = 0 := by
  refine ⟨(C8_mount_unmount_guards sPlain [1] dPlain).1 rfl,
          (C8_mount_unmount_guards initState [1] dPlain).2.1 rfl, ?_⟩
  rw [(C8_mount_unmount_guards sPlain [1] dPlain).2.2 rfl]
  rfl

/-- Counterexample to C2 as stated: `dC2` has a valid magic but a decoded
`block_size` of 512 ≠ 1024, yet `mount` returns 0 (and mounts), not
`CorruptDisk` — the `block_size` field is never validated. -/
theorem C2_counterexample :
    (decodeSuperblock (dC2.blocks 0)).block_size = 512 ∧
    (mount initState [100] dC2).fst = 0 ∧
    (mount initState [100] dC2).fst ≠ E_CORRUPT_DISK ∧
    (mount initState [100] dC2).snd.disk_mounted = true := by
  refine ⟨by decide, by decide, by decide, by decide⟩

/-- Claim C2 (amended): `mount` returns `CorruptDisk` exactly when the first
16 bytes of block 0 differ from the magic, releasing the device handle before
returning; the decoded `block_size` field is not validated (a device with a
valid magic mounts regardless of its `block_size`, shown here for superblocks
with `num_inode_blocks = 0`, where the reconstruction scan is empty). -/
theorem C2_amended (s : FSState) (name : List Nat) (d : VDisk) (blk : BlockData)
    (hm : s.disk_mounted = false) (hr : vdisk_read d 0 = .ok blk) :
    ((decodeSuperblock blk).magic ≠ MAGIC →
      mount s name d = (E_CORRUPT_DISK,
        { s with disk := d, superblock := decodeSuperblock blk, device_open := false })) ∧
    ((decodeSuperblock blk).magic = MAGIC →
      (decodeSuperblock blk).num_inode_blocks = 0 →
      (mount s name d).fst = 0 ∧ (mount s name d).snd.disk_mounted = true) := by
  constructor
  · intro hmagic
    unfold mount
    rw [hm]
    simp only [Bool.false_eq_true, if_false]
    rw [hr]
    simp [hmagic]
  · intro hmagic hnib
    unfold mount
    rw [hm]
    simp only [Bool.false_eq_true, if_false]
    rw [hr]
    simp only [hmagic, ne_eq, not_true_eq_false, Bool.false_eq_true, if_false, hnib,
      Nat.zero_add]
    simp only [foldl_bmSet_range_one]
    simp only [bmSet, maxInodes, hnib]
    exact ⟨rfl, rfl⟩

/-- Witness for C2 (amended): a zeroed block 0 fails the magic check and the
handle is released; `dC2` (valid magic, `block_size = 512`) mounts. -/
theorem C2_amended_witness :
    mount initState [100] dBadMagic = (E_CORRUPT_DISK,
      { initState with disk := dBadMagic, superblock := decodeSuperblock zeroBlock,
                       device_open := false }) ∧
    (mount initState [100] dC2).fst = 0 := by
  refine ⟨(C2_amended initState [100] dBadMagic zeroBlock rfl rfl).1 (by decide), ?_⟩
  exact ((C2_amended initState [100] dC2 (dC2.blocks 0) rfl rfl).2 (by decide) (by decide)).1

/-- Claim C1 (the code at the claim's input): after `format` returns 0 on a
pristine 8-sector device, `mount` of the formatted device does *not* return
0 — the reconstruction scan's very first `read_inode` refuses with
`DiskNotMounted` because `disk_mounted` is still false during `mount`, so the
mount is aborted and the volume is left unmounted. -/
theorem C1_format_then_mount_fails :
    (format initState (cleanDisk 8) 10).fst = 0 ∧
    (mount initState [100] (format initState (cleanDisk 8) 10).snd).fst
      = E_DISK_NOT_MOUNTED ∧
    (mount initState [100] (format initState (cleanDisk 8) 10).snd).snd.disk_mounted
      = false := by
  refine ⟨by decide, by decide, by decide⟩

/-! ### Claims C9 and C10: read with negative offset, zero-length write -/

theorem resolve_neg_offset (s : FSState) (ino : Inode) (offset : Int) (alloc : Bool)
    (hm : s.disk_mounted = true) (hoff : offset < 0) :
    get_block_for_offset s ino offset alloc = (E_INVALID_OFFSET, ino, s) := by
  unfold get_block_for_offset
  rw [if_neg (show ¬((!s.disk_mounted) = true) by simp [hm]), if_pos hoff]

/-- Claim C9: on a mounted volume with a valid inode, `read` with a negative
offset returns 0 and copies no bytes (it does not return `InvalidOffset`):
the `int` offset is compared against the unsigned size, so either no bytes
are available, or the first loop iteration's resolution fails on the negative
offset and the loop exits with 0 bytes copied. -/
theorem C9_read_negative_offset (s : FSState) (i len offset : Int) {ino : Inode}
    (h0 : 0 ≤ i) (hri : read_inode s i = .ok ino) (hv : ino.valid ≠ 0)
    (hoff : offset < 0) :
    read s i len offset = (0, []) := by
  have hm : s.disk_mounted = true := by
    unfold read_inode at hri
    by_contra hc
    simp [Bool.not_eq_true] at hc
    simp [hc] at hri
  have hlt : i < (maxInodes s : Int) := by
    unfold read_inode at hri
    by_contra hc
    rw [if_neg (by simp [hm]), if_pos (Or.inr (by omega))] at hri
    exact absurd hri (by simp)
  unfold read
  rw [if_neg (show ¬((!s.disk_mounted) = true) by simp [hm])]
  rw [if_neg (by omega), hri]
  simp only []
  rw [if_neg hv]
  by_cases hc : intToUint32 offset < ino.size
  · rw [if_pos hc]
    by_cases hl : (if toInt32 (ino.size - intToUint32 offset) > len then len
                   else toInt32 (ino.size - intToUint32 offset)) ≤ 0
    · rw [if_pos hl]
    · rw [if_neg hl]
      obtain ⟨n, hn⟩ : ∃ n, (if toInt32 (ino.size - intToUint32 offset) > len then len
          else toInt32 (ino.size - intToUint32 offset)).toNat = n + 1 :=
        ⟨(if toInt32 (ino.size - intToUint32 offset) > len then len
          else toInt32 (ino.size - intToUint32 offset)).toNat - 1, by omega⟩
      rw [hn]
      unfold readLoop
      rw [if_pos (by omega)]
      rw [resolve_neg_offset s ino offset false hm hoff]
      simp only []
      rw [if_pos (by unfold E_INVALID_OFFSET; omega)]
  · rw [if_neg hc]
    rw [if_pos (by omega)]

/-- Witness for C9: negative offset on the valid empty inode 0 of `sPlain`. -/
theorem C9_read_negative_offset_witness : read sPlain 0 10 (-5) = (0, []) :=
  @C9_read_negative_offset sPlain 0 10 (-5) (inodeAt sPlain.disk 0) (by decide) rfl
    (by decide) (by decide)

/-- Claim C10: on a mounted volume with a valid inode, `write` of zero bytes
at an offset within the file (`0 ≤ offset ≤ size`) returns 0 and leaves the
whole mounted state — the on-disk inode record, the bitmap and every data
block — exactly as it was. -/
theorem C10_write_len_zero_noop (s : FSState) (i offset : Int) (data : List Nat)
    {ino : Inode} (h0 : 0 ≤ i) (hri : read_inode s i = .ok ino) (hv : ino.valid ≠ 0)
    (hoff0 : 0 ≤ offset) (hofflt : offset < 2147483648)
    (hle : offset.toNat ≤ ino.size) :
    write s i data 0 offset = (0, s) := by
  have hm : s.disk_mounted = true := by
    unfold read_inode at hri
    by_contra hc
    simp [Bool.not_eq_true] at hc
    simp [hc] at hri
  have hlt : i < (maxInodes s : Int) := by
    unfold read_inode at hri
    by_contra hc
    rw [if_neg (by simp [hm]), if_pos (Or.inr (by omega))] at hri
    exact absurd hri (by simp)
  have hu : intToUint32 offset = offset.toNat := intToUint32_eq hoff0 (by omega)
  have hfill : ¬ (intToUint32 offset > ino.size) := by rw [hu]; omega
  unfold write
  rw [if_neg (show ¬((!s.disk_mounted) = true) by simp [hm])]
  rw [if_neg (by omega), hri]
  simp only []
  rw [if_neg hv, if_neg hfill]
  show (match dataLoop i data 0 (0 : Int).toNat s ino 0 offset with
        | .error (r, s) => (r, s)
        | .ok (bw, curOff, ino, s) =>
          if intToUint32 curOff > ino.size then
            match write_inode s i { ino with size := intToUint32 curOff } with
            | .error _ => (bw, s)
            | .ok s' => (bw, s')
          else (bw, s)) = (0, s)
  show (if intToUint32 offset > ino.size then _ else ((0 : Int), s)) = ((0 : Int), s)
  rw [if_neg hfill]

/-- Witness for C10 at `sPlain` (inode 0, size 0, offset 0). -/
theorem C10_write_len_zero_noop_witness : write sPlain 0 [7] 0 0 = (0, sPlain) :=
  @C10_write_len_zero_noop sPlain 0 0 [7] (inodeAt sPlain.disk 0) (by decide) rfl
    (by decide) (by decide) (by decide) (by decide)

/-! ### Claim C4: invariant I4 across failing operations -/

theorem read_inode_ok_elim {s : FSState} {i : Int} {ino : Inode}
    (h : read_inode s i = .ok ino) :
    s.disk_mounted = true ∧ 0 ≤ i ∧ i < (maxInodes s : Int) ∧
      s.disk.readErr (1 + i.toNat / 32) = none ∧ ino = inodeAt s.disk i.toNat := by
  unfold read_inode vdisk_read at h
  by_cases hm : s.disk_mounted = true
  · rw [if_neg (by simp [hm])] at h
    by_cases hr : i < 0 ∨ (maxInodes s : Int) ≤ i
    · rw [if_pos hr] at h
      exact absurd h (by simp)
    · rw [if_neg hr] at h
      push_neg at hr
      cases he : s.disk.readErr (1 + i.toNat / 32) with
      | some e =>
        simp only [he] at h
        exact Except.noConfusion h
      | none =>
        simp only [he] at h
        refine ⟨hm, hr.1, hr.2, rfl, ?_⟩
        exact (Except.ok.inj h).symm
  · rw [if_pos (by simp [Bool.not_eq_true] at hm ⊢; exact hm)] at h
    exact absurd h (by simp)

theorem bmGet_free_block_self {s : FSState} {b : Nat}
    (hg : s.disk_mounted = true ∧ 0 < b ∧ b < 2147483648 ∧ b < s.superblock.num_blocks) :
    bmGet (free_block s b) b = 0 := by
  unfold free_block
  rw [if_pos hg]
  unfold bmGet bmSet
  cases s.block_bitmap with
  | none => rfl
  | some bm => simp

theorem freeDirectStep_frame (p : Inode × FSState) (k : Nat) :
    (freeDirectStep p k).2.disk = p.2.disk ∧
    (freeDirectStep p k).2.superblock = p.2.superblock ∧
    (freeDirectStep p k).2.disk_mounted = p.2.disk_mounted ∧
    (freeDirectStep p k).1.indirect_block = p.1.indirect_block := by
  unfold freeDirectStep
  split
  · exact ⟨(free_block_frame p.2 _).1, (free_block_frame p.2 _).2.1,
      (free_block_frame p.2 _).2.2, rfl⟩
  · exact ⟨rfl, rfl, rfl, rfl⟩

theorem freeDirectStep_bm0 {p : Inode × FSState} {x : Nat}
    (h : bmGet p.2 x = 0) (k : Nat) : bmGet (freeDirectStep p k).2 x = 0 := by
  unfold freeDirectStep
  split
  · exact bmGet_free_block_zero h _
  · exact h

theorem deleteFreeDirects_eq (s : FSState) (ino : Inode) :
    deleteFreeDirects s ino =
      freeDirectStep (freeDirectStep (freeDirectStep (freeDirectStep (ino, s) 0) 1) 2) 3 :=
  rfl

theorem deleteFreeDirects_frame (s : FSState) (ino : Inode) :
    (deleteFreeDirects s ino).2.disk = s.disk ∧
    (deleteFreeDirects s ino).2.superblock = s.superblock ∧
    (deleteFreeDirects s ino).2.disk_mounted = s.disk_mounted ∧
    (deleteFreeDirects s ino).1.indirect_block = ino.indirect_block := by
  rw [deleteFreeDirects_eq]
  have f0 := freeDirectStep_frame (ino, s) 0
  have f1 := freeDirectStep_frame (freeDirectStep (ino, s) 0) 1
  have f2 := freeDirectStep_frame (freeDirectStep (freeDirectStep (ino, s) 0) 1) 2
  have f3 := freeDirectStep_frame
    (freeDirectStep (freeDirectStep (freeDirectStep (ino, s) 0) 1) 2) 3
  refine ⟨?_, ?_, ?_, ?_⟩
  · rw [f3.1, f2.1, f1.1, f0.1]
  · rw [f3.2.1, f2.2.1, f1.2.1, f0.2.1]
  · rw [f3.2.2.1, f2.2.2.1, f1.2.2.1, f0.2.2.1]
  · rw [f3.2.2.2, f2.2.2.2, f1.2.2.2, f0.2.2.2]

theorem deleteFreeDirects_frees_first {s : FSState} {ino : Inode} {b : Nat}
    (hd0 : ino.direct_blocks.getD 0 0 = b) (hb : b ≠ 0)
    (hg : s.disk_mounted = true ∧ 0 < b ∧ b < 2147483648 ∧ b < s.superblock.num_blocks) :
    bmGet (deleteFreeDirects s ino).2 b = 0 := by
  rw [deleteFreeDirects_eq]
  have h0 : bmGet (freeDirectStep (ino, s) 0).2 b = 0 := by
    unfold freeDirectStep
    rw [if_pos (show ((ino, s) : Inode × FSState).1.direct_blocks.getD 0 0 ≠ 0 by
      rw [show ((ino, s) : Inode × FSState).1 = ino from rfl, hd0]; exact hb)]
    rw [show ((ino, s) : Inode × FSState).1 = ino from rfl,
        show ((ino, s) : Inode × FSState).2 = s from rfl, hd0]
    exact bmGet_free_block_self hg
  exact freeDirectStep_bm0 (freeDirectStep_bm0 (freeDirectStep_bm0 h0 1) 2) 3

set_option maxRecDepth 4000 in
/-- Counterexample to C4 as stated: in the mounted state `sC4` invariant I4
holds, `delete 0` fails partway with the device-read error `-100` (the
indirect block is unreadable), and afterwards I4 no longer holds — the freed
direct block 2 is still referenced by the valid on-disk inode 0. -/
theorem C4_counterexample :
    I4holds sC4 ∧ (delete sC4 0).fst = -100 ∧ ¬ I4holds (delete sC4 0).snd := by
  refine ⟨by decide, by decide, by decide⟩

/-- Claim C4 (amended): not every negative-returning operation preserves the
invariants: when `delete i` on a mounted volume hits a device-read error on
the indirect block after freeing inode `i`'s direct blocks, it returns the
error with the direct block `b` already cleared in the bitmap while the
on-disk inode record still references `b` — so invariant I4 is violated in
the post-state. -/
theorem C4_amended (s : FSState) (i : Int) (b c : Nat) (e : Int) {ino : Inode}
    (hri : read_inode s i = .ok ino) (hv : ino.valid ≠ 0)
    (hd0 : ino.direct_blocks.getD 0 0 = b)
    (hb0 : 0 < b) (hb31 : b < 2147483648) (hbn : b < s.superblock.num_blocks)
    (hnibb : s.superblock.num_inode_blocks < b)
    (hc : ino.indirect_block = c) (hcne : c ≠ 0)
    (hce : s.disk.readErr c = some e) :
    (delete s i).fst = e ∧ bmGet (delete s i).snd b = 0 ∧
    ¬ I4holds (delete s i).snd := by
  obtain ⟨hm, h0, hlt, hre, hino⟩ := read_inode_ok_elim hri
  have hfr := deleteFreeDirects_frame s ino
  have hdel : delete s i = (e, (deleteFreeDirects s ino).2) := by
    unfold delete
    rw [if_neg (show ¬((!s.disk_mounted) = true) by simp [hm])]
    rw [if_neg (by omega), hri]
    simp only []
    rw [if_neg hv]
    unfold deleteIndirect
    rw [hfr.2.2.2, hc, if_pos hcne]
    unfold vdisk_read
    rw [hfr.1, hce]
  have hbm0 : bmGet (delete s i).snd b = 0 := by
    rw [hdel]
    exact deleteFreeDirects_frees_first hd0 (by omega) ⟨hm, hb0, hb31, hbn⟩
  refine ⟨by rw [hdel], hbm0, ?_⟩
  intro h4
  have hsb : (delete s i).snd.superblock = s.superblock := by rw [hdel]; exact hfr.2.1
  have hdk : (delete s i).snd.disk = s.disk := by rw [hdel]; exact hfr.1
  have hb4 := h4 b (by rw [hsb]; exact hbn)
  rw [hbm0] at hb4
  have hreach : reachableB (delete s i).snd b = true := by
    unfold reachableB
    rw [List.any_eq_true]
    refine ⟨i.toNat, List.mem_range.mpr ?_, ?_⟩
    · unfold maxInodes
      rw [hsb]
      unfold maxInodes at hlt
      omega
    · rw [hdk, ← hino]
      rw [Bool.and_eq_true]
      constructor
      · simp [hv]
      · unfold ptrReach
        rw [Bool.and_eq_true]
        constructor
        · simp; omega
        · rw [Bool.or_eq_true, Bool.or_eq_true]
          left; left
          rw [List.any_eq_true]
          exact ⟨0, by decide, by rw [hd0]; simp⟩
  rw [hreach] at hb4
  rw [hsb] at hb4
  simp [decide_eq_false (show ¬ b ≤ s.superblock.num_inode_blocks by omega)] at hb4

/-- Witness for C4 (amended), instantiated at `sC4`. -/
theorem C4_amended_witness :
    (delete sC4 0).fst = -100 ∧ bmGet (delete sC4 0).snd 2 = 0 ∧
    ¬ I4holds (delete sC4 0).snd :=
  @C4_amended sC4 0 2 3 (-100) (inodeAt sC4.disk 0) rfl (by decide) (by decide)
    (by decide) (by decide) (by decide) (by decide) (by decide) (by decide) rfl

/-! ### Claim C5: the navigator with `allocate = false` -/

/-- Claim C5: on a mounted volume, `get_block_for_offset(inode, offset,
false)` returns `InvalidOffset` for `offset < 0` and for logical block index
`L = offset / 1024 ≥ 65796`; otherwise it returns `direct_blocks[L]` for
`L < 4`, entry `L − 4` of the 256-pointer array in the block named by
`indirect_block` for `4 ≤ L < 260` (0 if `indirect_block` is 0), and entry
`(L−260) % 256` of the indirect block named by entry `(L−260) / 256` of the
double-indirect block for `260 ≤ L < 65796` (0 whenever a pointer on that
path is 0) — never touching the inode or the mounted state. -/
theorem C5_get_block_for_offset_no_alloc (s : FSState) (ino : Inode) (offset : Int)
    (hm : s.disk_mounted = true) :
    (offset < 0 → get_block_for_offset s ino offset false = (E_INVALID_OFFSET, ino, s)) ∧
    (0 ≤ offset → 65796 ≤ offset.toNat / 1024 →
      get_block_for_offset s ino offset false = (E_INVALID_OFFSET, ino, s)) ∧
    (0 ≤ offset → offset.toNat / 1024 < 4 →
      get_block_for_offset s ino offset false =
        ((ino.direct_blocks.getD (offset.toNat / 1024) 0 : Int), ino, s)) ∧
    (0 ≤ offset → 4 ≤ offset.toNat / 1024 → offset.toNat / 1024 < 260 →
      (ino.indirect_block = 0 →
        get_block_for_offset s ino offset false = (0, ino, s)) ∧
      (ino.indirect_block ≠ 0 → s.disk.readErr ino.indirect_block = none →
        get_block_for_offset s ino offset false =
          ((le32 (s.disk.blocks ino.indirect_block)
              (4 * (offset.toNat / 1024 - 4)) : Int), ino, s))) ∧
    (0 ≤ offset → 260 ≤ offset.toNat / 1024 → offset.toNat / 1024 < 65796 →
      (ino.double_indirect_block = 0 →
        get_block_for_offset s ino offset false = (0, ino, s)) ∧
      (ino.double_indirect_block ≠ 0 →
       s.disk.readErr ino.double_indirect_block = none →
        (le32 (s.disk.blocks ino.double_indirect_block)
            (4 * ((offset.toNat / 1024 - 260) / 256)) = 0 →
          get_block_for_offset s ino offset false = (0, ino, s)) ∧
        (le32 (s.disk.blocks ino.double_indirect_block)
            (4 * ((offset.toNat / 1024 - 260) / 256)) ≠ 0 →
         s.disk.readErr (le32 (s.disk.blocks ino.double_indirect_block)
            (4 * ((offset.toNat / 1024 - 260) / 256))) = none →
          get_block_for_offset s ino offset false =
            ((le32 (s.disk.blocks (le32 (s.disk.blocks ino.double_indirect_block)
                (4 * ((offset.toNat / 1024 - 260) / 256))))
              (4 * ((offset.toNat / 1024 - 260) % 256)) : Int), ino, s)))) := by
  have hnm : ¬ ((!s.disk_mounted) = true) := by simp [hm]
  refine ⟨fun hoff => ?_, fun h0 hL => ?_, fun h0 hL => ?_,
          fun h0 hL4 hL260 => ⟨fun hi0 => ?_, fun hine hre => ?_⟩,
          fun h0 hL260 hLmax => ⟨fun hd0 => ?_, fun hdne hdre => ?_⟩⟩
  · unfold get_block_for_offset
    rw [if_neg hnm, if_pos hoff]
  · unfold get_block_for_offset
    rw [if_neg hnm, if_neg (by omega), if_neg (by omega), if_neg (by omega),
        if_neg (by omega)]
  · unfold get_block_for_offset resolveDirect
    rw [if_neg hnm, if_neg (by omega), if_pos hL]
    rw [if_neg (by simp)]
  · unfold get_block_for_offset resolveIndirect
    rw [if_neg hnm, if_neg (by omega), if_neg (by omega), if_pos (by omega)]
    rw [if_pos hi0]
    rfl
  · unfold get_block_for_offset resolveIndirect vdisk_read
    rw [if_neg hnm, if_neg (by omega), if_neg (by omega), if_pos (by omega)]
    rw [if_neg hine]
    simp only [hre]
    rw [if_neg (by simp)]
  · unfold get_block_for_offset resolveDouble
    rw [if_neg hnm, if_neg (by omega), if_neg (by omega), if_neg (by omega),
        if_pos (by omega)]
    rw [if_pos hd0]
    rfl
  · unfold get_block_for_offset resolveDouble vdisk_read
    rw [if_neg hnm, if_neg (by omega), if_neg (by omega), if_neg (by omega),
        if_pos (by omega)]
    rw [if_neg hdne]
    simp only [hdre]
    constructor
    · intro hq0
      rw [if_neg (by simp), if_pos hq0]
    · intro hqne hqre
      rw [if_neg (by simp), if_neg hqne]
      simp only [hqre]
      rw [if_neg (by simp)]

/-- Witness for C5: negative offset, an in-range direct lookup, and a hole
behind a null indirect pointer, on `sPlain`'s inode 0. -/
theorem C5_get_block_for_offset_no_alloc_witness :
    (get_block_for_offset sPlain (inodeAt sPlain.disk 0) (-1) false).1
      = E_INVALID_OFFSET ∧
    (get_block_for_offset sPlain (inodeAt sPlain.disk 0) 100 false).1 = 0 ∧
    (get_block_for_offset sPlain (inodeAt sPlain.disk 0) 5000 false).1 = 0 ∧
    (get_block_for_offset sPlain (inodeAt sPlain.disk 0) 67375104 false).1
      = E_INVALID_OFFSET := by
  refine ⟨?_, ?_, ?_, ?_⟩
  · rw [(C5_get_block_for_offset_no_alloc sPlain (inodeAt sPlain.disk 0) (-1)
      rfl).1 (by decide)]
  · rw [(C5_get_block_for_offset_no_alloc sPlain (inodeAt sPlain.disk 0) 100
      rfl).2.2.1 (by decide) (by decide)]
    rfl
  · rw [((C5_get_block_for_offset_no_alloc sPlain (inodeAt sPlain.disk 0) 5000
      rfl).2.2.2.1 (by decide) (by decide) (by decide)).1 (by decide)]
  · rw [(C5_get_block_for_offset_no_alloc sPlain (inodeAt sPlain.disk 0) 67375104
      rfl).2.1 (by decide) (by decide)]

/-! ### Claim C6: the read loop -/

theorem resolveDirect_false_pure (s : FSState) (ino : Inode) (bi : Nat) :
    (resolveDirect s ino bi false).2 = (ino, s) := by
  unfold resolveDirect
  rw [if_neg (by simp)]

theorem resolveIndirect_false_pure (s : FSState) (ino : Inode) (bi2 : Nat) :
    (resolveIndirect s ino bi2 false).2 = (ino, s) := by
  unfold resolveIndirect
  by_cases h : ino.indirect_block = 0
  · rw [if_pos h]
    rfl
  · rw [if_neg h]
    cases hr : vdisk_read s.disk ino.indirect_block with
    | error e => simp only [hr]
    | ok blk =>
      simp only [hr]
      rw [if_neg (by simp)]

theorem resolveDouble_false_pure (s : FSState) (ino : Inode) (bi3 : Nat) :
    (resolveDouble s ino bi3 false).2 = (ino, s) := by
  unfold resolveDouble
  by_cases h : ino.double_indirect_block = 0
  · rw [if_pos h]
    rfl
  · rw [if_neg h]
    cases hr : vdisk_read s.disk ino.double_indirect_block with
    | error e => simp only [hr]
    | ok dblk =>
      simp only [hr]
      by_cases hq : le32 dblk (4 * (bi3 / 256)) = 0
      · rw [if_neg (by simp), if_pos hq]
      · rw [if_neg (by simp), if_neg hq]
        cases hr2 : vdisk_read s.disk (le32 dblk (4 * (bi3 / 256))) with
        | error e => simp only [hr2]
        | ok iblk =>
          simp only [hr2]
          rw [if_neg (by simp)]

theorem resolve_false_pure (s : FSState) (ino : Inode) (off : Int) :
    (get_block_for_offset s ino off false).2 = (ino, s) := by
  unfold get_block_for_offset
  by_cases hm : (!s.disk_mounted) = true
  · rw [if_pos hm]
  · rw [if_neg hm]
    by_cases hoff : off < 0
    · rw [if_pos hoff]
    · rw [if_neg hoff]
      by_cases h4 : off.toNat / 1024 < 4
      · rw [if_pos h4]
        exact resolveDirect_false_pure s ino (off.toNat / 1024)
      · rw [if_neg h4]
        by_cases h260 : off.toNat / 1024 - 4 < 256
        · rw [if_pos h260]
          exact resolveIndirect_false_pure s ino (off.toNat / 1024 - 4)
        · rw [if_neg h260]
          by_cases hmax : off.toNat / 1024 - 260 < 65536
          · rw [if_pos hmax]
            exact resolveDouble_false_pure s ino (off.toNat / 1024 - 260)
          · rw [if_neg hmax]

theorem resolve_false_eta (s : FSState) (ino : Inode) (off : Int) :
    get_block_for_offset s ino off false =
      ((get_block_for_offset s ino off false).1, ino, s) := by
  rw [← resolve_false_pure s ino off]

theorem readLoop_exit (btr : Int) (fuel : Nat) (s : FSState) (ino : Inode)
    (bytesRead curOff : Int) (acc : List Nat) (hb : ¬ bytesRead < btr) :
    readLoop btr fuel s ino bytesRead curOff acc = (bytesRead, acc) := by
  cases fuel with
  | zero => rfl
  | succ n =>
    unfold readLoop
    rw [if_neg hb]

theorem readLoop_break (btr : Int) (fuel : Nat) (s : FSState) (ino : Inode)
    (bytesRead curOff : Int) (acc : List Nat) (hb : bytesRead < btr)
    (hbn : (get_block_for_offset s ino curOff false).1 ≤ 0) :
    readLoop btr (fuel + 1) s ino bytesRead curOff acc = (bytesRead, acc) := by
  unfold readLoop
  rw [if_pos hb, resolve_false_eta s ino curOff]
  simp only []
  rw [if_pos hbn]

theorem readLoop_step (btr : Int) (fuel : Nat) (s : FSState) (ino : Inode)
    (bytesRead curOff : Int) (acc : List Nat) (hb : bytesRead < btr)
    (hbn : 0 < (get_block_for_offset s ino curOff false).1)
    (hre : s.disk.readErr ((get_block_for_offset s ino curOff false).1).toNat = none) :
    readLoop btr (fuel + 1) s ino bytesRead curOff acc =
      readLoop btr fuel s ino
        (bytesRead + min (1024 - Int.tmod curOff 1024) (btr - bytesRead))
        (curOff + min (1024 - Int.tmod curOff 1024) (btr - bytesRead))
        (acc ++ (List.range (min (1024 - Int.tmod curOff 1024) (btr - bytesRead)).toNat).map
          fun k => s.disk.blocks ((get_block_for_offset s ino curOff false).1).toNat
            ((Int.tmod curOff 1024).toNat + k) % 256) := by
  show (if bytesRead < btr then _ else (bytesRead, acc)) = _
  rw [if_pos hb, resolve_false_eta s ino curOff]
  simp only []
  rw [if_neg (by omega)]
  unfold vdisk_read
  rw [hre]

theorem readLoop_complete (fuel : Nat) :
    ∀ (s : FSState) (ino : Inode) (btr bytesRead curOff : Int) (acc : List Nat),
    0 ≤ bytesRead → bytesRead ≤ btr → 0 ≤ curOff →
    btr - bytesRead ≤ (fuel : Int) →
    (∀ off : Int, curOff ≤ off → off < curOff + (btr - bytesRead) →
      0 < (get_block_for_offset s ino off false).1 ∧
      s.disk.readErr ((get_block_for_offset s ino off false).1).toNat = none) →
    (readLoop btr fuel s ino bytesRead curOff acc).1 = btr ∧
    (readLoop btr fuel s ino bytesRead curOff acc).2.length
      = acc.length + (btr - bytesRead).toNat := by
  induction fuel with
  | zero =>
    intro s ino btr bytesRead curOff acc hbr0 hble hcur hfuel hres
    rw [readLoop_exit btr 0 s ino bytesRead curOff acc (by omega)]
    show bytesRead = btr ∧ acc.length = acc.length + (btr - bytesRead).toNat
    exact ⟨by omega, by omega⟩
  | succ n ih =>
    intro s ino btr bytesRead curOff acc hbr0 hble hcur hfuel hres
    by_cases hb : bytesRead < btr
    · have hr0 := hres curOff (le_refl _) (by omega)
      have hmod0 : 0 ≤ Int.tmod curOff 1024 := Int.tmod_nonneg 1024 hcur
      have hmodlt : Int.tmod curOff 1024 < 1024 :=
        Int.tmod_lt_of_pos curOff (by norm_num)
      set btc := min (1024 - Int.tmod curOff 1024) (btr - bytesRead) with hbtc
      have hbtc1 : 1 ≤ btc := by
        rw [hbtc]
        have := min_le_left (1024 - Int.tmod curOff 1024) (btr - bytesRead)
        omega
      have hbtcle : btc ≤ btr - bytesRead := min_le_right _ _
      rw [readLoop_step btr n s ino bytesRead curOff acc hb hr0.1 hr0.2]
      have hnext := ih s ino btr (bytesRead + btc) (curOff + btc)
        (acc ++ (List.range btc.toNat).map
          fun k => s.disk.blocks ((get_block_for_offset s ino curOff false).1).toNat
            ((Int.tmod curOff 1024).toNat + k) % 256)
        (by omega) (by omega) (by omega) (by omega)
        (fun off hlo hhi => hres off (by omega) (by omega))
      refine ⟨hnext.1, ?_⟩
      rw [hnext.2]
      simp only [List.length_append, List.length_map, List.length_range]
      omega
    · rw [readLoop_exit btr (n + 1) s ino bytesRead curOff acc hb]
      show bytesRead = btr ∧ acc.length = acc.length + (btr - bytesRead).toNat
      exact ⟨by omega, by omega⟩

theorem readLoop_hole (fuel : Nat) :
    ∀ (s : FSState) (ino : Inode) (btr bytesRead curOff p : Int) (acc : List Nat),
    0 ≤ bytesRead → bytesRead < btr → 0 ≤ curOff →
    curOff ≤ p → p < curOff + (btr - bytesRead) →
    (p = curOff ∨ Int.tmod p 1024 = 0) →
    (∀ off : Int, curOff ≤ off → off < p →
      0 < (get_block_for_offset s ino off false).1 ∧
      s.disk.readErr ((get_block_for_offset s ino off false).1).toNat = none) →
    (get_block_for_offset s ino p false).1 = 0 →
    btr - bytesRead ≤ (fuel : Int) →
    (readLoop btr fuel s ino bytesRead curOff acc).1 = bytesRead + (p - curOff) ∧
    (readLoop btr fuel s ino bytesRead curOff acc).2.length
      = acc.length + (p - curOff).toNat := by
  induction fuel with
  | zero =>
    intro s ino btr bytesRead curOff p acc hbr0 hb hcur hp1 hp2 hpb hres hp0 hfuel
    omega
  | succ n ih =>
    intro s ino btr bytesRead curOff p acc hbr0 hb hcur hp1 hp2 hpb hres hp0 hfuel
    by_cases hpe : p = curOff
    · subst hpe
      rw [readLoop_break btr n s ino bytesRead p acc hb (by omega)]
      show bytesRead = bytesRead + (p - p) ∧ acc.length = acc.length + (p - p).toNat
      exact ⟨by omega, by omega⟩
    · have hplt : curOff < p := by omega
      have hpmod : Int.tmod p 1024 = 0 := by
        rcases hpb with h | h
        · omega
        · exact h
      have hr0 := hres curOff (le_refl _) hplt
      have hmod0 : 0 ≤ Int.tmod curOff 1024 := Int.tmod_nonneg 1024 hcur
      have hmodlt : Int.tmod curOff 1024 < 1024 :=
        Int.tmod_lt_of_pos curOff (by norm_num)
      -- the hole is block-aligned and strictly ahead, so the next iteration
      -- stops exactly at the block boundary
      have hcurE : Int.tmod curOff 1024 = curOff % 1024 :=
        Int.tmod_eq_emod hcur (by norm_num)
      have hpE : Int.tmod p 1024 = p % 1024 := Int.tmod_eq_emod (by omega) (by norm_num)
      have hbound : 1024 - Int.tmod curOff 1024 ≤ p - curOff := by
        rw [hcurE]
        rw [hpE] at hpmod
        omega
      have hbtc : min (1024 - Int.tmod curOff 1024) (btr - bytesRead)
          = 1024 - Int.tmod curOff 1024 := by
        apply min_eq_left
        omega
      rw [readLoop_step btr n s ino bytesRead curOff acc hb hr0.1 hr0.2]
      rw [hbtc]
      have hnext := ih s ino btr (bytesRead + (1024 - Int.tmod curOff 1024))
        (curOff + (1024 - Int.tmod curOff 1024)) p
        (acc ++ (List.range (1024 - Int.tmod curOff 1024).toNat).map
          fun k => s.disk.blocks ((get_block_for_offset s ino curOff false).1).toNat
            ((Int.tmod curOff 1024).toNat + k) % 256)
        (by omega) (by omega) (by omega) (by omega) (by omega)
        (Or.inr hpmod)
        (fun off hlo hhi => hres off (by omega) hhi)
        hp0 (by omega)
      refine ⟨by rw [hnext.1]; omega, ?_⟩
      rw [hnext.2]
      simp only [List.length_append, List.length_map, List.length_range]
      omega

/-- Claim C6: `read(i, buf, len, offset)` on a mounted volume, valid inode
and `offset ≥ 0` (with `size`, `offset`, `len` in `int` range): the effective
length is `min(len, max(0, size − offset))`; if that is ≤ 0 the call returns
0 and copies nothing; if every traversed block pointer resolves to a positive
block and every device read succeeds, exactly the effective length of bytes
is copied and returned; and a pointer value of 0 at a block-aligned position
`p` mid-stream terminates the loop, returning the `p − offset` bytes already
copied. -/
theorem C6_read_effective_length (s : FSState) (i len offset : Int) {ino : Inode}
    (h0 : 0 ≤ i) (hri : read_inode s i = .ok ino) (hv : ino.valid ≠ 0)
    (hoff : 0 ≤ offset) (hofflt : offset < 2147483648)
    (hsize : ino.size < 2147483648) (hlen : len < 2147483648) :
    (min len ((ino.size : Int) - offset) ≤ 0 → read s i len offset = (0, [])) ∧
    (0 < min len ((ino.size : Int) - offset) →
      (∀ off : Int, offset ≤ off → off < offset + min len ((ino.size : Int) - offset) →
        0 < (get_block_for_offset s ino off false).1 ∧
        s.disk.readErr ((get_block_for_offset s ino off false).1).toNat = none) →
      (read s i len offset).1 = min len ((ino.size : Int) - offset) ∧
      (read s i len offset).2.length = (min len ((ino.size : Int) - offset)).toNat) ∧
    (0 < min len ((ino.size : Int) - offset) →
      ∀ p : Int, offset ≤ p → p < offset + min len ((ino.size : Int) - offset) →
      (p = offset ∨ Int.tmod p 1024 = 0) →
      (∀ off : Int, offset ≤ off → off < p →
        0 < (get_block_for_offset s ino off false).1 ∧
        s.disk.readErr ((get_block_for_offset s ino off false).1).toNat = none) →
      (get_block_for_offset s ino p false).1 = 0 →
      (read s i len offset).1 = p - offset ∧
      (read s i len offset).2.length = (p - offset).toNat) := by
  obtain ⟨hm, -, hlt, -, -⟩ := read_inode_ok_elim hri
  have hu : intToUint32 offset = offset.toNat := intToUint32_eq hoff (by omega)
  have hread : read s i len offset =
      (if (if intToUint32 offset < ino.size then
            if toInt32 (ino.size - intToUint32 offset) > len then len
            else toInt32 (ino.size - intToUint32 offset)
          else 0) ≤ 0 then ((0 : Int), ([] : List Nat))
       else readLoop
          (if intToUint32 offset < ino.size then
            if toInt32 (ino.size - intToUint32 offset) > len then len
            else toInt32 (ino.size - intToUint32 offset)
          else 0)
          (if intToUint32 offset < ino.size then
            if toInt32 (ino.size - intToUint32 offset) > len then len
            else toInt32 (ino.size - intToUint32 offset)
          else 0).toNat s ino 0 offset []) := by
    unfold read
    rw [if_neg (show ¬((!s.disk_mounted) = true) by simp [hm])]
    rw [if_neg (by omega), hri]
    simp only []
    rw [if_neg hv]
  have hBpos : 0 < min len ((ino.size : Int) - offset) →
      (if intToUint32 offset < ino.size then
        if toInt32 (ino.size - intToUint32 offset) > len then len
        else toInt32 (ino.size - intToUint32 offset)
      else 0) = min len ((ino.size : Int) - offset) := by
    intro hel
    rw [hu]
    rw [if_pos (by omega)]
    rw [toInt32_eq (by omega)]
    have heq : ((ino.size - offset.toNat : Nat) : Int) = (ino.size : Int) - offset := by
      omega
    rw [heq]
    by_cases hgt : (ino.size : Int) - offset > len
    · rw [if_pos hgt]; omega
    · rw [if_neg hgt]; omega
  have hB0 : min len ((ino.size : Int) - offset) ≤ 0 →
      (if intToUint32 offset < ino.size then
        if toInt32 (ino.size - intToUint32 offset) > len then len
        else toInt32 (ino.size - intToUint32 offset)
      else 0) ≤ 0 := by
    intro hel
    rw [hu]
    by_cases hc : offset.toNat < ino.size
    · rw [if_pos hc]
      rw [toInt32_eq (by omega)]
      have heq : ((ino.size - offset.toNat : Nat) : Int) = (ino.size : Int) - offset := by
        omega
      rw [heq]
      by_cases hgt : (ino.size : Int) - offset > len
      · rw [if_pos hgt]; omega
      · rw [if_neg hgt]; omega
    · rw [if_neg hc]
  refine ⟨fun hel => ?_, fun hel hres => ?_, fun hel p hp1 hp2 hpb hres hp0 => ?_⟩
  · rw [hread, if_pos (hB0 hel)]
  · rw [hread, hBpos hel, if_neg (by omega)]
    have h := readLoop_complete (min len ((ino.size : Int) - offset)).toNat
      s ino (min len ((ino.size : Int) - offset)) 0 offset []
      (le_refl 0) (by omega) hoff (by omega)
      (fun off hlo hhi => hres off (by omega) (by omega))
    refine ⟨by rw [h.1], by rw [h.2]; simp⟩
  · rw [hread, hBpos hel, if_neg (by omega)]
    have h := readLoop_hole (min len ((ino.size : Int) - offset)).toNat
      s ino (min len ((ino.size : Int) - offset)) 0 offset p []
      (le_refl 0) (by omega) hoff hp1 (by omega) hpb
      (fun off hlo hhi => hres off (by omega) hhi)
      hp0 (by omega)
    refine ⟨by rw [h.1]; omega, by rw [h.2]; simp⟩

/-- Witness for C6: the 25-byte file of `sData` reads back fully
(effective length 25 at offset 0). -/
theorem C6_read_effective_length_witness :
    (read sData 0 25 0).1 = 25 ∧ (read sData 0 25 0).2.length = 25 := by
  have hsz : ((inodeAt sData.disk 0).size : Int) = 25 := by decide
  have hmin : min (25 : Int) (((inodeAt sData.disk 0).size : Int) - 0) = 25 := by
    rw [hsz]
    decide
  have hresolve : ∀ off : Int, 0 ≤ off → off < 25 →
      get_block_for_offset sData (inodeAt sData.disk 0) off false
        = (2, inodeAt sData.disk 0, sData) := by
    intro off hlo hhi
    unfold get_block_for_offset resolveDirect
    rw [if_neg (by decide), if_neg (by omega), if_pos (by omega), if_neg (by simp)]
    have hL : off.toNat / 1024 = 0 := by omega
    rw [hL]
    rfl
  have h := (@C6_read_effective_length sData 0 25 0 (inodeAt sData.disk 0)
    (by decide) rfl (by decide) (by decide) (by decide) (by decide)
    (by decide)).2.1
  rw [hmin] at h
  have hr := h (by decide) (fun off hlo hhi => by
    rw [hresolve off hlo (by omega)]
    exact ⟨by decide, by decide⟩)
  exact ⟨hr.1, hr.2⟩

/-! ### Inode codec lemmas (roundtrip and frame) -/

theorem le32_lt (b : BlockData) (off : Nat) : le32 b off < 4294967296 := by
  unfold le32
  have h0 := Nat.mod_lt (b off) (show 0 < 256 by norm_num)
  have h1 := Nat.mod_lt (b (off + 1)) (show 0 < 256 by norm_num)
  have h2 := Nat.mod_lt (b (off + 2)) (show 0 < 256 by norm_num)
  have h3 := Nat.mod_lt (b (off + 3)) (show 0 < 256 by norm_num)
  omega

theorem decode_reduced (b : BlockData) (off : Nat) : InodeReduced (decodeInode b off) := by
  unfold decodeInode
  refine ⟨Nat.mod_lt _ (by norm_num), Nat.mod_lt _ (by norm_num),
    Nat.mod_lt _ (by norm_num), Nat.mod_lt _ (by norm_num), le32_lt b _,
    ⟨le32 b (off + 8), le32 b (off + 12), le32 b (off + 16), le32 b (off + 20),
      rfl, le32_lt b _, le32_lt b _, le32_lt b _, le32_lt b _⟩,
    le32_lt b _, le32_lt b _⟩

theorem freshInode_reduced {a : Inode} (ha : InodeReduced a) :
    InodeReduced (freshInode a) := by
  obtain ⟨hv, hp1, hp2, hp3, hs, -, hi, hd⟩ := ha
  exact ⟨by show (1 : Nat) < 256; norm_num, hp1, hp2, hp3,
    by show (0 : Nat) < 4294967296; norm_num,
    ⟨0, 0, 0, 0, rfl, by norm_num, by norm_num, by norm_num, by norm_num⟩,
    by show (0 : Nat) < 4294967296; norm_num, by show (0 : Nat) < 4294967296; norm_num⟩

theorem zeroed_reduced {a : Inode} (ha : InodeReduced a) :
    InodeReduced { a with valid := 0, size := 0 } := by
  obtain ⟨hv, hp1, hp2, hp3, hs, hdb, hi, hd⟩ := ha
  exact ⟨by norm_num, hp1, hp2, hp3, by norm_num, hdb, hi, hd⟩

theorem le32_bytes (x : Nat) (hx : x < 4294967296) :
    byteOfU32 x 0 % 256 + 256 * (byteOfU32 x 1 % 256) + 65536 * (byteOfU32 x 2 % 256)
      + 16777216 * (byteOfU32 x 3 % 256) = x := by
  unfold byteOfU32
  simp only [pow_zero, pow_one, Nat.div_one]
  rw [show (256 : Nat) ^ 2 = 65536 by norm_num, show (256 : Nat) ^ 3 = 16777216 by norm_num]
  omega

theorem encodeInode_in (b : BlockData) (off : Nat) (ino : Inode) (c : Nat) (hc : c < 32) :
    encodeInode b off ino (off + c) = inodeByte ino c := by
  unfold encodeInode
  rw [if_pos (by omega)]
  congr 1
  omega

theorem encodeInode_out (b : BlockData) (off : Nat) (ino : Inode) (j : Nat)
    (hj : j < off ∨ off + 32 ≤ j) : encodeInode b off ino j = b j := by
  unfold encodeInode
  rw [if_neg (by omega)]

theorem le32_encode_at {b : BlockData} {off : Nat} {ino : Inode} {c x : Nat}
    (hc : c + 4 ≤ 32)
    (h0 : inodeByte ino c = byteOfU32 x 0) (h1 : inodeByte ino (c + 1) = byteOfU32 x 1)
    (h2 : inodeByte ino (c + 2) = byteOfU32 x 2) (h3 : inodeByte ino (c + 3) = byteOfU32 x 3)
    (hx : x < 4294967296) :
    le32 (encodeInode b off ino) (off + c) = x := by
  unfold le32
  rw [show off + c + 1 = off + (c + 1) from by omega,
      show off + c + 2 = off + (c + 2) from by omega,
      show off + c + 3 = off + (c + 3) from by omega]
  rw [encodeInode_in b off ino c (by omega), encodeInode_in b off ino (c + 1) (by omega),
      encodeInode_in b off ino (c + 2) (by omega), encodeInode_in b off ino (c + 3) (by omega)]
  rw [h0, h1, h2, h3]
  exact le32_bytes x hx

theorem decode_encode_same {b : BlockData} {off : Nat} {ino : Inode}
    (hr : InodeReduced ino) :
    decodeInode (encodeInode b off ino) off = ino := by
  obtain ⟨hv, hp1, hp2, hp3, hs, ⟨a0, a1, a2, a3, hl, ha0, ha1, ha2, ha3⟩, hi, hd⟩ := hr
  have hb0 : encodeInode b off ino off = inodeByte ino 0 := by
    have := encodeInode_in b off ino 0 (by omega)
    rwa [Nat.add_zero] at this
  have h8 : inodeByte ino 8 = byteOfU32 a0 0 := by
    show byteOfU32 (ino.direct_blocks.getD 0 0) 0 = byteOfU32 a0 0
    rw [hl]; rfl
  have h9 : inodeByte ino 9 = byteOfU32 a0 1 := by
    show byteOfU32 (ino.direct_blocks.getD 0 0) 1 = byteOfU32 a0 1
    rw [hl]; rfl
  have h10 : inodeByte ino 10 = byteOfU32 a0 2 := by
    show byteOfU32 (ino.direct_blocks.getD 0 0) 2 = byteOfU32 a0 2
    rw [hl]; rfl
  have h11 : inodeByte ino 11 = byteOfU32 a0 3 := by
    show byteOfU32 (ino.direct_blocks.getD 0 0) 3 = byteOfU32 a0 3
    rw [hl]; rfl
  have h12 : inodeByte ino 12 = byteOfU32 a1 0 := by
    show byteOfU32 (ino.direct_blocks.getD 1 0) 0 = byteOfU32 a1 0
    rw [hl]; rfl
  have h13 : inodeByte ino 13 = byteOfU32 a1 1 := by
    show byteOfU32 (ino.direct_blocks.getD 1 0) 1 = byteOfU32 a1 1
    rw [hl]; rfl
  have h14 : inodeByte ino 14 = byteOfU32 a1 2 := by
    show byteOfU32 (ino.direct_blocks.getD 1 0) 2 = byteOfU32 a1 2
    rw [hl]; rfl
  have h15 : inodeByte ino 15 = byteOfU32 a1 3 := by
    show byteOfU32 (ino.direct_blocks.getD 1 0) 3 = byteOfU32 a1 3
    rw [hl]; rfl
  have h16 : inodeByte ino 16 = byteOfU32 a2 0 := by
    show byteOfU32 (ino.direct_blocks.getD 2 0) 0 = byteOfU32 a2 0
    rw [hl]; rfl
  have h17 : inodeByte ino 17 = byteOfU32 a2 1 := by
    show byteOfU32 (ino.direct_blocks.getD 2 0) 1 = byteOfU32 a2 1
    rw [hl]; rfl
  have h18 : inodeByte ino 18 = byteOfU32 a2 2 := by
    show byteOfU32 (ino.direct_blocks.getD 2 0) 2 = byteOfU32 a2 2
    rw [hl]; rfl
  have h19 : inodeByte ino 19 = byteOfU32 a2 3 := by
    show byteOfU32 (ino.direct_blocks.getD 2 0) 3 = byteOfU32 a2 3
    rw [hl]; rfl
  have h20 : inodeByte ino 20 = byteOfU32 a3 0 := by
    show byteOfU32 (ino.direct_blocks.getD 3 0) 0 = byteOfU32 a3 0
    rw [hl]; rfl
  have h21 : inodeByte ino 21 = byteOfU32 a3 1 := by
    show byteOfU32 (ino.direct_blocks.getD 3 0) 1 = byteOfU32 a3 1
    rw [hl]; rfl
  have h22 : inodeByte ino 22 = byteOfU32 a3 2 := by
    show byteOfU32 (ino.direct_blocks.getD 3 0) 2 = byteOfU32 a3 2
    rw [hl]; rfl
  have h23 : inodeByte ino 23 = byteOfU32 a3 3 := by
    show byteOfU32 (ino.direct_blocks.getD 3 0) 3 = byteOfU32 a3 3
    rw [hl]; rfl
  unfold decodeInode
  rw [hb0, encodeInode_in b off ino 1 (by omega), encodeInode_in b off ino 2 (by omega),
      encodeInode_in b off ino 3 (by omega)]
  rw [show off + 4 = off + 4 from rfl,
      le32_encode_at (c := 4) (x := ino.size) (by omega) rfl rfl rfl rfl hs,
      le32_encode_at (c := 8) (x := a0) (by omega) h8 h9 h10 h11 ha0,
      le32_encode_at (c := 12) (x := a1) (by omega) h12 h13 h14 h15 ha1,
      le32_encode_at (c := 16) (x := a2) (by omega) h16 h17 h18 h19 ha2,
      le32_encode_at (c := 20) (x := a3) (by omega) h20 h21 h22 h23 ha3,
      le32_encode_at (c := 24) (x := ino.indirect_block) (by omega) rfl rfl rfl rfl hi,
      le32_encode_at (c := 28) (x := ino.double_indirect_block) (by omega) rfl rfl rfl rfl hd]
  show Inode.mk (ino.valid % 256 % 256) (ino.pad1 % 256 % 256) (ino.pad2 % 256 % 256)
      (ino.pad3 % 256 % 256) ino.size [a0, a1, a2, a3] ino.indirect_block
      ino.double_indirect_block = ino
  rw [Nat.mod_eq_of_lt hv, Nat.mod_eq_of_lt hv,
      Nat.mod_eq_of_lt hp1, Nat.mod_eq_of_lt hp1,
      Nat.mod_eq_of_lt hp2, Nat.mod_eq_of_lt hp2,
      Nat.mod_eq_of_lt hp3, Nat.mod_eq_of_lt hp3, ← hl]

theorem decodeInode_congr {f g : BlockData} {off : Nat}
    (h : ∀ j, off ≤ j → j < off + 32 → f j = g j) :
    decodeInode f off = decodeInode g off := by
  unfold decodeInode le32
  rw [h off (by omega) (by omega), h (off + 1) (by omega) (by omega),
      h (off + 2) (by omega) (by omega), h (off + 3) (by omega) (by omega),
      h (off + 4) (by omega) (by omega), h (off + 4 + 1) (by omega) (by omega),
      h (off + 4 + 2) (by omega) (by omega), h (off + 4 + 3) (by omega) (by omega),
      h (off + 8) (by omega) (by omega), h (off + 8 + 1) (by omega) (by omega),
      h (off + 8 + 2) (by omega) (by omega), h (off + 8 + 3) (by omega) (by omega),
      h (off + 12) (by omega) (by omega), h (off + 12 + 1) (by omega) (by omega),
      h (off + 12 + 2) (by omega) (by omega), h (off + 12 + 3) (by omega) (by omega),
      h (off + 16) (by omega) (by omega), h (off + 16 + 1) (by omega) (by omega),
      h (off + 16 + 2) (by omega) (by omega), h (off + 16 + 3) (by omega) (by omega),
      h (off + 20) (by omega) (by omega), h (off + 20 + 1) (by omega) (by omega),
      h (off + 20 + 2) (by omega) (by omega), h (off + 20 + 3) (by omega) (by omega),
      h (off + 24) (by omega) (by omega), h (off + 24 + 1) (by omega) (by omega),
      h (off + 24 + 2) (by omega) (by omega), h (off + 24 + 3) (by omega) (by omega),
      h (off + 28) (by omega) (by omega), h (off + 28 + 1) (by omega) (by omega),
      h (off + 28 + 2) (by omega) (by omega), h (off + 28 + 3) (by omega) (by omega)]

theorem decode_encode_frame {b : BlockData} {off off' : Nat} {ino : Inode}
    (h : off' + 32 ≤ off ∨ off + 32 ≤ off') :
    decodeInode (encodeInode b off ino) off' = decodeInode b off' :=
  decodeInode_congr fun j h1 h2 => encodeInode_out b off ino j (by omega)

theorem putBlock_blocks (s : FSState) (n : Nat) (b : BlockData) (m : Nat) :
    (putBlock s n b).disk.blocks m = if m = n then b else s.disk.blocks m := rfl

theorem putBlock_frame (s : FSState) (n : Nat) (b : BlockData) :
    (putBlock s n b).disk_mounted = s.disk_mounted ∧
    (putBlock s n b).superblock = s.superblock ∧
    (putBlock s n b).disk.readErr = s.disk.readErr ∧
    (putBlock s n b).disk.writeErr = s.disk.writeErr ∧
    (putBlock s n b).block_bitmap = s.block_bitmap :=
  ⟨rfl, rfl, rfl, rfl, rfl⟩

theorem maxInodes_eq {s : FSState} (h : SaneGeometry s) :
    maxInodes s = s.superblock.num_inode_blocks * 32 := by
  unfold maxInodes u32
  unfold SaneGeometry at h
  omega

theorem table_block_le {s : FSState} {j : Nat} (hs : SaneGeometry s)
    (hj : j < maxInodes s) :
    1 ≤ 1 + j / 32 ∧ 1 + j / 32 ≤ s.superblock.num_inode_blocks := by
  rw [maxInodes_eq hs] at hj
  omega

theorem inodeAt_putBlock (s : FSState) (B : Nat) (blk : BlockData) (j : Nat) :
    inodeAt (putBlock s B blk).disk j =
      if 1 + j / 32 = B then decodeInode blk ((j % 32) * 32) else inodeAt s.disk j := by
  unfold inodeAt
  rw [putBlock_blocks]
  by_cases h : 1 + j / 32 = B
  · rw [if_pos h, if_pos h]
  · rw [if_neg h, if_neg h]

theorem create_eq {s : FSState} (hm : s.disk_mounted = true) (hs : SaneGeometry s) :
    create s = createLoop s 0 (maxInodes s) := by
  unfold create
  rw [if_neg (show ¬((!s.disk_mounted) = true) by simp [hm])]
  rw [toInt32_eq (by rw [maxInodes_eq hs]; unfold SaneGeometry at hs; omega)]
  rw [Int.toNat_ofNat]

theorem createLoop_found (fuel : Nat) :
    ∀ (k t : Nat) (s : FSState), s.disk_mounted = true → TableClean s → SaneGeometry s →
    k ≤ t → t < k + fuel → t < maxInodes s →
    (∀ j, k ≤ j → j < t → (inodeAt s.disk j).valid ≠ 0) →
    (inodeAt s.disk t).valid = 0 →
    createLoop s k fuel = ((t : Int),
      putBlock s (1 + t / 32)
        (encodeInode (s.disk.blocks (1 + t / 32)) ((t % 32) * 32)
          (freshInode (inodeAt s.disk t)))) := by
  induction fuel with
  | zero =>
    intro k t s _ _ _ hkt htk _ _ _
    omega
  | succ n ih =>
    intro k t s hm hc hs hkt htk htmax hvs hvt
    have hkmax : k < maxInodes s := by omega
    have hblk := table_block_le hs hkmax
    have hrcw := hc (1 + k / 32) hblk.1 hblk.2
    unfold createLoop
    rw [read_inode_ok hm (by omega) (by omega)
      (by rw [Int.toNat_ofNat]; exact hrcw.1)]
    rw [Int.toNat_ofNat]
    simp only []
    by_cases hke : k = t
    · subst hke
      rw [if_pos hvt]
      rw [write_inode_ok hm (by omega) (by omega)
        (by rw [Int.toNat_ofNat]; exact hrcw.1) (by rw [Int.toNat_ofNat]; exact hrcw.2)]
      rw [Int.toNat_ofNat]
    · rw [if_neg (hvs k (by omega) (by omega))]
      exact ih (k + 1) t s hm hc hs (by omega) (by omega) htmax
        (fun j h1 h2 => hvs j (by omega) h2) hvt

theorem createLoop_full (fuel : Nat) :
    ∀ (k : Nat) (s : FSState), s.disk_mounted = true → TableClean s → SaneGeometry s →
    k + fuel ≤ maxInodes s →
    (∀ j, k ≤ j → j < k + fuel → (inodeAt s.disk j).valid ≠ 0) →
    createLoop s k fuel = (E_OUT_OF_INODES, s) := by
  induction fuel with
  | zero => intro k s _ _ _ _ _; rfl
  | succ n ih =>
    intro k s hm hc hs hle hvs
    have hkmax : k < maxInodes s := by omega
    have hblk := table_block_le hs hkmax
    have hrcw := hc (1 + k / 32) hblk.1 hblk.2
    unfold createLoop
    rw [read_inode_ok hm (by omega) (by omega)
      (by rw [Int.toNat_ofNat]; exact hrcw.1)]
    rw [Int.toNat_ofNat]
    simp only []
    rw [if_neg (hvs k (by omega) (by omega))]
    exact ih (k + 1) s hm hc hs (by omega) (fun j h1 h2 => hvs j (by omega) (by omega))

theorem createLoop_inv (fuel : Nat) :
    ∀ (k : Nat) (s : FSState) (r : Int) (s' : FSState),
    s.disk_mounted = true → TableClean s → SaneGeometry s →
    k + fuel ≤ maxInodes s →
    createLoop s k fuel = (r, s') → 0 ≤ r →
    ∃ t : Nat, r = (t : Int) ∧ k ≤ t ∧ t < k + fuel ∧
      (∀ j, k ≤ j → j < t → (inodeAt s.disk j).valid ≠ 0) ∧
      (inodeAt s.disk t).valid = 0 ∧
      s' = putBlock s (1 + t / 32)
        (encodeInode (s.disk.blocks (1 + t / 32)) ((t % 32) * 32)
          (freshInode (inodeAt s.disk t))) := by
  induction fuel with
  | zero =>
    intro k s r s' _ _ _ _ heq hr
    have hfst : (E_OUT_OF_INODES, s).1 = (r, s').1 := congrArg Prod.fst heq
    simp only [] at hfst
    rw [← hfst] at hr
    exact absurd hr (by decide)
  | succ n ih =>
    intro k s r s' hm hc hs hle heq hr
    have hkmax : k < maxInodes s := by omega
    have hblk := table_block_le hs hkmax
    have hrcw := hc (1 + k / 32) hblk.1 hblk.2
    unfold createLoop at heq
    rw [read_inode_ok hm (by omega) (by omega)
      (by rw [Int.toNat_ofNat]; exact hrcw.1)] at heq
    rw [Int.toNat_ofNat] at heq
    simp only [] at heq
    by_cases hv : (inodeAt s.disk k).valid = 0
    · rw [if_pos hv] at heq
      rw [write_inode_ok hm (by omega) (by omega)
        (by rw [Int.toNat_ofNat]; exact hrcw.1) (by rw [Int.toNat_ofNat]; exact hrcw.2)] at heq
      rw [Int.toNat_ofNat] at heq
      refine ⟨k, ?_, le_refl k, by omega, fun j h1 h2 => absurd h1 (by omega), hv, ?_⟩
      · exact (congrArg Prod.fst heq).symm
      · exact (congrArg Prod.snd heq).symm
    · rw [if_neg hv] at heq
      obtain ⟨t, h1, h2, h3, h4, h5, h6⟩ :=
        ih (k + 1) s r s' hm hc hs (by omega) heq hr
      exact ⟨t, h1, by omega, by omega,
        fun j hj1 hj2 => by
          rcases Nat.eq_or_lt_of_le hj1 with he | hlt
          · rw [← he]; exact hv
          · exact h4 j (by omega) hj2,
        h5, h6⟩

theorem getD_four_zeros (k : Nat) : ([0, 0, 0, 0] : List Nat).getD k 0 = 0 := by
  match k with
  | 0 => rfl
  | 1 => rfl
  | 2 => rfl
  | 3 => rfl
  | n + 4 => rfl

theorem freeDirectStep_zeros {p : Inode × FSState} (hp : p.1.direct_blocks = [0, 0, 0, 0])
    (k : Nat) : freeDirectStep p k = p := by
  unfold freeDirectStep
  rw [hp, getD_four_zeros]
  rw [if_neg (by simp)]

theorem deleteFreeDirects_zeros {s : FSState} {ino : Inode}
    (hdb : ino.direct_blocks = [0, 0, 0, 0]) :
    deleteFreeDirects s ino = (ino, s) := by
  rw [deleteFreeDirects_eq]
  rw [freeDirectStep_zeros (p := (ino, s)) hdb 0]
  rw [freeDirectStep_zeros (p := (ino, s)) hdb 1]
  rw [freeDirectStep_zeros (p := (ino, s)) hdb 2]
  rw [freeDirectStep_zeros (p := (ino, s)) hdb 3]

theorem delete_fresh {s1 : FSState} {t : Nat}
    (hm : s1.disk_mounted = true) (hc : TableClean s1) (hs : SaneGeometry s1)
    (htmax : t < maxInodes s1)
    (hv : (inodeAt s1.disk t).valid ≠ 0)
    (hdb : (inodeAt s1.disk t).direct_blocks = [0, 0, 0, 0])
    (hind : (inodeAt s1.disk t).indirect_block = 0)
    (hdbl : (inodeAt s1.disk t).double_indirect_block = 0) :
    delete s1 (t : Int) = (0,
      putBlock s1 (1 + t / 32)
        (encodeInode (s1.disk.blocks (1 + t / 32)) ((t % 32) * 32)
          { inodeAt s1.disk t with valid := 0, size := 0 })) := by
  have hblk := table_block_le hs htmax
  have hrcw := hc _ hblk.1 hblk.2
  unfold delete
  rw [if_neg (by simp [hm])]
  rw [if_neg (by omega)]
  rw [read_inode_ok hm (by omega) (by omega) (by rw [Int.toNat_ofNat]; exact hrcw.1)]
  rw [Int.toNat_ofNat]
  simp only []
  rw [if_neg hv]
  rw [deleteFreeDirects_zeros hdb]
  unfold deleteIndirect
  rw [if_neg (by simp [hind])]
  simp only []
  unfold deleteDouble
  rw [if_neg (by simp [hdbl])]
  simp only []
  rw [write_inode_ok hm (by omega) (by omega)
    (by rw [Int.toNat_ofNat]; exact hrcw.1) (by rw [Int.toNat_ofNat]; exact hrcw.2)]
  rw [Int.toNat_ofNat]

theorem inodeAt_encode_frame (s : FSState) (t : Nat) (x : Inode) (j : Nat)
    (hne : j ≠ t) :
    inodeAt (putBlock s (1 + t / 32)
      (encodeInode (s.disk.blocks (1 + t / 32)) ((t % 32) * 32) x)).disk j
    = inodeAt s.disk j := by
  rw [inodeAt_putBlock]
  by_cases hb : 1 + j / 32 = 1 + t / 32
  · rw [if_pos hb]
    rw [decode_encode_frame (by omega)]
    unfold inodeAt
    rw [hb]
  · rw [if_neg hb]

theorem inodeAt_encode_same (s : FSState) (t : Nat) (x : Inode) :
    inodeAt (putBlock s (1 + t / 32)
      (encodeInode (s.disk.blocks (1 + t / 32)) ((t % 32) * 32) x)).disk t
    = decodeInode (encodeInode (s.disk.blocks (1 + t / 32)) ((t % 32) * 32) x)
        ((t % 32) * 32) := by
  rw [inodeAt_putBlock, if_pos rfl]

/-- Claim C7: on a mounted volume `create` returns the smallest inode index
whose slot is free, having initialised it to `valid=1, size=0`, all pointers
0, and persisted that record; with every slot taken it returns `OutOfInodes`;
unmounted it returns `DiskNotMounted`.  Consequently, once `create` has
returned an index `i` on such a volume, `delete(i)` succeeds and a further
`create` returns `i` again. -/
theorem C7_create_first_free (s : FSState) :
    (s.disk_mounted = false → create s = (E_DISK_NOT_MOUNTED, s)) ∧
    (s.disk_mounted = true → TableClean s → SaneGeometry s →
      (∀ t : Nat, t < maxInodes s →
        (∀ j, j < t → (inodeAt s.disk j).valid ≠ 0) →
        (inodeAt s.disk t).valid = 0 →
        create s = ((t : Int),
          putBlock s (1 + t / 32)
            (encodeInode (s.disk.blocks (1 + t / 32)) ((t % 32) * 32)
              (freshInode (inodeAt s.disk t))))) ∧
      ((∀ j, j < maxInodes s → (inodeAt s.disk j).valid ≠ 0) →
        create s = (E_OUT_OF_INODES, s)) ∧
      (∀ (i : Int) (s1 : FSState), create s = (i, s1) → 0 ≤ i →
        (delete s1 i).1 = 0 ∧ (create (delete s1 i).2).1 = i)) := by
  constructor
  · intro hm
    unfold create
    rw [if_pos (by simp [hm])]
  · intro hm hc hs
    refine ⟨fun t htmax hvs hvt => ?_, fun hall => ?_, fun i s1 hcr hi => ?_⟩
    · rw [create_eq hm hs]
      exact createLoop_found (maxInodes s) 0 t s hm hc hs (by omega) (by omega) htmax
        (fun j _ h2 => hvs j h2) hvt
    · rw [create_eq hm hs]
      exact createLoop_full (maxInodes s) 0 s hm hc hs (by omega)
        (fun j _ h2 => hall j (by omega))
    · rw [create_eq hm hs] at hcr
      obtain ⟨t, hit, -, htmax, hvs, hvt, hs1⟩ :=
        createLoop_inv (maxInodes s) 0 s i s1 hm hc hs (by omega) hcr hi
      subst hit
      subst hs1
      -- abbreviations
      have hfr := putBlock_frame s (1 + t / 32)
        (encodeInode (s.disk.blocks (1 + t / 32)) ((t % 32) * 32)
          (freshInode (inodeAt s.disk t)))
      set s1 := putBlock s (1 + t / 32)
        (encodeInode (s.disk.blocks (1 + t / 32)) ((t % 32) * 32)
          (freshInode (inodeAt s.disk t))) with hs1def
      have hm1 : s1.disk_mounted = true := by rw [hfr.1, hm]
      have hsb1 : s1.superblock = s.superblock := hfr.2.1
      have hc1 : TableClean s1 := by
        intro bblk h1 h2
        rw [hsb1] at h2
        have := hc bblk h1 h2
        rw [hfr.2.2.1, hfr.2.2.2.1]
        exact this
      have hsg1 : SaneGeometry s1 := by
        unfold SaneGeometry
        rw [hsb1]
        exact hs
      have hmax1 : maxInodes s1 = maxInodes s := by
        unfold maxInodes
        rw [hsb1]
      have hred : InodeReduced (inodeAt s.disk t) := decode_reduced _ _
      have hinoT : inodeAt s1.disk t = freshInode (inodeAt s.disk t) := by
        rw [hs1def, inodeAt_encode_same]
        exact decode_encode_same (freshInode_reduced hred)
      have hdel := @delete_fresh s1 t hm1 hc1 hsg1 (by omega)
        (by rw [hinoT]; exact Nat.one_ne_zero)
        (by rw [hinoT]; rfl)
        (by rw [hinoT]; rfl)
        (by rw [hinoT]; rfl)
      rw [hinoT] at hdel
      constructor
      · rw [hdel]
      · rw [hdel]
        -- the state after delete
        have hfr2 := putBlock_frame s1 (1 + t / 32)
          (encodeInode (s1.disk.blocks (1 + t / 32)) ((t % 32) * 32)
            { freshInode (inodeAt s.disk t) with valid := 0, size := 0 })
        set s2 := putBlock s1 (1 + t / 32)
          (encodeInode (s1.disk.blocks (1 + t / 32)) ((t % 32) * 32)
            { freshInode (inodeAt s.disk t) with valid := 0, size := 0 }) with hs2def
        have hm2 : s2.disk_mounted = true := by rw [hfr2.1, hm1]
        have hsb2 : s2.superblock = s.superblock := by rw [hfr2.2.1, hsb1]
        have hc2 : TableClean s2 := by
          intro bblk h1 h2
          rw [hsb2] at h2
          have := hc bblk h1 h2
          rw [hfr2.2.2.1, hfr2.2.2.2.1, hfr.2.2.1, hfr.2.2.2.1]
          exact this
        have hsg2 : SaneGeometry s2 := by
          unfold SaneGeometry
          rw [hsb2]
          exact hs
        have hmax2 : maxInodes s2 = maxInodes s := by
          unfold maxInodes
          rw [hsb2]
        have hinoT2 : (inodeAt s2.disk t).valid = 0 := by
          rw [hs2def, inodeAt_encode_same,
            decode_encode_same (zeroed_reduced (freshInode_reduced hred))]
        have hframe2 : ∀ j, j ≠ t → inodeAt s2.disk j = inodeAt s.disk j := by
          intro j hj
          rw [hs2def, inodeAt_encode_frame s1 t _ j hj,
              hs1def, inodeAt_encode_frame s t _ j hj]
        have hcr2 := createLoop_found (maxInodes s2) 0 t s2 hm2 hc2 hsg2
          (by omega) (by omega) (by omega)
          (fun j _ h2 => by rw [hframe2 j (by omega)]; exact hvs j (by omega) h2)
          hinoT2
        show (create s2).1 = (t : Int)
        rw [create_eq hm2 hsg2]
        rw [hcr2]

/-- Witness for C7: on `sPlain` (slot 0 taken, slot 1 free) `create` returns
1; deleting it and creating again returns 1. -/
theorem C7_create_first_free_witness :
    (create sPlain).1 = 1 ∧
    (delete (create sPlain).2 (create sPlain).1).1 = 0 ∧
    (create (delete (create sPlain).2 (create sPlain).1).2).1 = 1 := by
  have hclean : TableClean sPlain := by
    intro bblk h1 h2
    have hb : bblk = 1 := by
      have : sPlain.superblock.num_inode_blocks = 1 := rfl
      omega
    subst hb
    exact ⟨rfl, rfl⟩
  have hsg : SaneGeometry sPlain := by
    unfold SaneGeometry
    decide
  have h := (C7_create_first_free sPlain).2 rfl hclean hsg
  have hcr := h.1 1 (by decide)
    (fun j hj => by
      have hj0 : j = 0 := by omega
      subst hj0
      decide)
    (by decide)
  have hd := h.2.2 _ _ hcr (by norm_num)
  refine ⟨?_, ?_, ?_⟩
  · rw [hcr]
    rfl
  · rw [hcr]
    exact hd.1
  · rw [hcr]
    exact hd.2

/-! ### Claim C3: the sparse-fill phase of `write` -/

theorem fillFrame_refl (nib : Nat) (s : FSState) : FillFrame nib s s :=
  ⟨rfl, rfl, rfl, rfl, fun _ _ => rfl⟩

theorem fillFrame_trans {nib : Nat} {s1 s2 s3 : FSState}
    (h12 : FillFrame nib s1 s2) (h23 : FillFrame nib s2 s3) : FillFrame nib s1 s3 :=
  ⟨h23.1.trans h12.1, h23.2.1.trans h12.2.1, h23.2.2.1.trans h12.2.2.1,
   h23.2.2.2.1.trans h12.2.2.2.1,
   fun b hb => (h23.2.2.2.2 b hb).trans (h12.2.2.2.2 b hb)⟩

theorem bmSet_fillFrame (nib : Nat) (s : FSState) (b v : Nat) :
    FillFrame nib s (bmSet s b v) :=
  ⟨rfl, rfl, rfl, rfl, fun _ _ => rfl⟩

theorem free_block_fillFrame (nib : Nat) (s : FSState) (b : Nat) :
    FillFrame nib s (free_block s b) := by
  unfold free_block
  split
  · exact bmSet_fillFrame nib s b 0
  · exact fillFrame_refl nib s

theorem findFreeLoop_cases (fuel : Nat) :
    ∀ (s : FSState) (i : Nat) (r : Int) (s' : FSState),
    findFreeLoop s i fuel = (r, s') →
    (r = E_OUT_OF_SPACE ∧ s' = s) ∨
    (∃ b : Nat, r = (b : Int) ∧ i ≤ b ∧ s' = bmSet s b 1) := by
  induction fuel with
  | zero =>
    intro s i r s' h
    left
    exact ⟨(congrArg Prod.fst h).symm, (congrArg Prod.snd h).symm⟩
  | succ n ih =>
    intro s i r s' h
    unfold findFreeLoop at h
    by_cases hb : bmGet s i = 0
    · rw [if_pos hb] at h
      right
      exact ⟨i, (congrArg Prod.fst h).symm, le_refl i, (congrArg Prod.snd h).symm⟩
    · rw [if_neg hb] at h
      rcases ih s (i + 1) r s' h with he | ⟨b, h1, h2, h3⟩
      · exact Or.inl he
      · exact Or.inr ⟨b, h1, by omega, h3⟩

theorem allocZeroed_ok {s : FSState} {nb : Nat} {s₂ : FSState}
    (hm : s.disk_mounted = true) (h : allocZeroed s = .ok (nb, s₂)) :
    s.superblock.num_inode_blocks < nb ∧
    FillFrame s.superblock.num_inode_blocks s s₂ := by
  unfold allocZeroed find_free_block at h
  simp only [] at h
  rw [if_neg (show ¬((!s.disk_mounted) = true) by simp [hm])] at h
  rcases hff : findFreeLoop s (1 + s.superblock.num_inode_blocks)
      (s.superblock.num_blocks - (1 + s.superblock.num_inode_blocks)) with ⟨r, s₁⟩
  rw [hff] at h
  simp only [] at h
  rcases findFreeLoop_cases _ s _ r s₁ hff with ⟨he, hs1⟩ | ⟨b, hrb, hble, hs1⟩
  · rw [he, if_pos (by decide)] at h
    exact absurd h (by simp)
  · rw [hrb, if_neg (by omega)] at h
    subst hs1
    unfold vdisk_write at h
    cases hwe : (bmSet s b 1).disk.writeErr ((b : Int).toNat) with
    | some e =>
      rw [hwe] at h
      exact absurd h (by simp)
    | none =>
      rw [hwe] at h
      simp only [Except.ok.injEq, Prod.mk.injEq] at h
      obtain ⟨hnb, hst⟩ := h
      constructor
      · omega
      · refine fillFrame_trans (bmSet_fillFrame _ s b 1) ?_
        rw [← hst]
        refine ⟨rfl, rfl, rfl, rfl, fun x hx => ?_⟩
        show (if x = (b : Int).toNat then zeroBlock else (bmSet s b 1).disk.blocks x)
          = (bmSet s b 1).disk.blocks x
        rw [if_neg (by omega)]

theorem allocZeroed_err {s : FSState} {e : Int} {s₂ : FSState}
    (hw : VDiskWf s.disk) (h : allocZeroed s = .error (e, s₂)) : e < 0 := by
  unfold allocZeroed find_free_block at h
  simp only [] at h
  by_cases hm : s.disk_mounted = true
  · rw [if_neg (show ¬((!s.disk_mounted) = true) by simp [hm])] at h
    rcases hff : findFreeLoop s (1 + s.superblock.num_inode_blocks)
        (s.superblock.num_blocks - (1 + s.superblock.num_inode_blocks)) with ⟨r, s₁⟩
    rw [hff] at h
    simp only [] at h
    rcases findFreeLoop_cases _ s _ r s₁ hff with ⟨he, hs1⟩ | ⟨b, hrb, hble, hs1⟩
    · rw [he, if_pos (by decide)] at h
      simp only [Except.error.injEq, Prod.mk.injEq] at h
      rw [← h.1]
      decide
    · rw [hrb, if_neg (by omega)] at h
      unfold vdisk_write at h
      cases hwe : s₁.disk.writeErr ((b : Int).toNat) with
      | some e' =>
        rw [hwe] at h
        simp only [Except.error.injEq, Prod.mk.injEq] at h
        rw [← h.1]
        have hsame : s₁.disk.writeErr ((b : Int).toNat) = s.disk.writeErr ((b : Int).toNat) := by
          rw [hs1]
          rfl
        exact hw.2 _ e' (hsame ▸ hwe)
      | none =>
        rw [hwe] at h
        exact absurd h (by simp)
  · have hmf : s.disk_mounted = false := by
      revert hm
      cases s.disk_mounted <;> simp
    rw [if_pos (show (!s.disk_mounted) = true by simp [hmf])] at h
    rw [if_pos (show ((E_DISK_NOT_MOUNTED, s).1 : Int) < 0 by
      show (E_DISK_NOT_MOUNTED : Int) < 0
      decide)] at h
    simp only [Except.error.injEq, Prod.mk.injEq] at h
    rw [← h.1]
    decide

theorem fillGood_mono {nib : Nat} {s s₁ : FSState}
    {res : Except (Int × FSState) (Inode × FSState)}
    (hf : FillFrame nib s s₁) (h : FillGood nib s₁ res) : FillGood nib s res := by
  cases res with
  | error p =>
    rcases p with ⟨e, s₂⟩
    exact h
  | ok p =>
    rcases p with ⟨ino₂, s₂⟩
    exact fillFrame_trans hf h

theorem resolveDirect_alloc {nib : Nat} {s : FSState} {ino : Inode} {bi : Nat}
    {r : Int} {ino' : Inode} {s' : FSState}
    (hm : s.disk_mounted = true) (hw : VDiskWf s.disk)
    (hd : DirectsOK nib ino) (hbi : bi < 4)
    (hnib : s.superblock.num_inode_blocks = nib)
    (h : resolveDirect s ino bi true = (r, ino', s')) :
    r < 0 ∨ ((nib : Int) < r ∧ FillFrame nib s s' ∧ DirectsOK nib ino') := by
  obtain ⟨a0, a1, a2, a3, hsh, h0, h1, h2, h3⟩ := hd
  unfold resolveDirect at h
  by_cases hz : ino.direct_blocks.getD bi 0 = 0
  · rw [if_pos ⟨hz, rfl⟩] at h
    cases ha : allocZeroed s with
    | error p =>
      rcases p with ⟨e, se⟩
      rw [ha] at h
      simp only [Prod.mk.injEq] at h
      left
      exact h.1 ▸ allocZeroed_err hw ha
    | ok p =>
      rcases p with ⟨nb, s₂⟩
      rw [ha] at h
      simp only [Prod.mk.injEq] at h
      obtain ⟨hnb, hframe⟩ := allocZeroed_ok hm ha
      rw [hnib] at hnb hframe
      have hget : (ino.direct_blocks.set bi nb).getD bi 0 = nb := by
        rw [hsh]
        interval_cases bi <;> rfl
      right
      refine ⟨?_, ?_, ?_⟩
      · rw [← h.1]
        show (nib : Int) < ((ino.direct_blocks.set bi nb).getD bi 0 : Nat)
        rw [hget]
        exact_mod_cast hnb
      · rw [← h.2.2]
        exact hframe
      · rw [← h.2.1]
        show DirectsOK nib { ino with direct_blocks := ino.direct_blocks.set bi nb }
        interval_cases bi
        · exact ⟨nb, a1, a2, a3, by show ino.direct_blocks.set 0 nb = _; rw [hsh]; rfl,
            Or.inr hnb, h1, h2, h3⟩
        · exact ⟨a0, nb, a2, a3, by show ino.direct_blocks.set 1 nb = _; rw [hsh]; rfl,
            h0, Or.inr hnb, h2, h3⟩
        · exact ⟨a0, a1, nb, a3, by show ino.direct_blocks.set 2 nb = _; rw [hsh]; rfl,
            h0, h1, Or.inr hnb, h3⟩
        · exact ⟨a0, a1, a2, nb, by show ino.direct_blocks.set 3 nb = _; rw [hsh]; rfl,
            h0, h1, h2, Or.inr hnb⟩
  · rw [if_neg (fun hc => hz hc.1)] at h
    simp only [Prod.mk.injEq] at h
    have hnz : nib < ino.direct_blocks.getD bi 0 := by
      rw [hsh] at hz ⊢
      interval_cases bi
      · exact h0.resolve_left hz
      · exact h1.resolve_left hz
      · exact h2.resolve_left hz
      · exact h3.resolve_left hz
    right
    refine ⟨?_, ?_, ?_⟩
    · rw [← h.1]
      exact_mod_cast hnz
    · rw [← h.2.2]
      exact fillFrame_refl nib s
    · rw [← h.2.1]
      exact ⟨a0, a1, a2, a3, hsh, h0, h1, h2, h3⟩

theorem gbfo_direct_alloc {nib : Nat} {s : FSState} {ino : Inode} {curr : Int}
    {r : Int} {ino' : Inode} {s' : FSState}
    (hm : s.disk_mounted = true) (hw : VDiskWf s.disk)
    (hd : DirectsOK nib ino) (hnib : s.superblock.num_inode_blocks = nib)
    (h0 : 0 ≤ curr) (h4 : curr < 4096)
    (h : get_block_for_offset s ino curr true = (r, ino', s')) :
    r < 0 ∨ ((nib : Int) < r ∧ FillFrame nib s s' ∧ DirectsOK nib ino') := by
  unfold get_block_for_offset at h
  rw [if_neg (show ¬((!s.disk_mounted) = true) by simp [hm])] at h
  rw [if_neg (by omega)] at h
  simp only [] at h
  rw [if_pos (show curr.toNat / 1024 < 4 by omega)] at h
  exact resolveDirect_alloc hm hw hd (by omega) hnib h

theorem fillLoop_spec {nib : Nat} (inum : Int) (fillEnd : Int) (hfe : fillEnd ≤ 4096) :
    ∀ (fuel : Nat) (s : FSState) (ino : Inode) (curr : Int),
    s.disk_mounted = true → VDiskWf s.disk → DirectsOK nib ino →
    s.superblock.num_inode_blocks = nib → 0 ≤ curr →
    FillGood nib s (fillLoop inum fillEnd fuel s ino curr) := by
  intro fuel
  induction fuel with
  | zero =>
    intro s ino curr _ _ _ _ _
    simp only [fillLoop]
    exact fillFrame_refl nib s
  | succ n ih =>
    intro s ino curr hm hw hd hnib hc
    unfold fillLoop
    by_cases hlt : curr < fillEnd
    case neg =>
      rw [if_neg hlt]
      exact fillFrame_refl nib s
    case pos =>
      rw [if_pos hlt]
      simp only []
      rcases hg : get_block_for_offset s ino curr true with ⟨bn, ino₁, s₁⟩
      simp only []
      rcases gbfo_direct_alloc hm hw hd hnib hc (by omega) hg with hneg | ⟨hgt, hfr, hdo⟩
      · rw [if_pos (show bn ≤ 0 by omega)]
        exact hneg
      · rw [if_neg (show ¬bn ≤ 0 by omega)]
        have hmod0 : 0 ≤ Int.tmod curr 1024 := Int.tmod_nonneg 1024 hc
        have hmodlt : Int.tmod curr 1024 < 1024 := Int.tmod_lt_of_pos curr (by norm_num)
        have hw₁ : VDiskWf s₁.disk :=
          ⟨fun n e he => hw.1 n e (hfr.2.2.1 ▸ he), fun n e he => hw.2 n e (hfr.2.2.2.1 ▸ he)⟩
        by_cases hcond : Int.tmod curr 1024 > 0 ∨
            min (1024 - Int.tmod curr 1024) (fillEnd - curr) < 1024
        · rw [if_pos hcond]
          cases hrd : vdisk_read s₁.disk bn.toNat with
          | error e =>
            simp only []
            unfold vdisk_read at hrd
            cases hre : s₁.disk.readErr bn.toNat with
            | some e' =>
              rw [hre] at hrd
              exact (Except.error.inj hrd) ▸ hw₁.1 _ e' hre
            | none =>
              rw [hre] at hrd
              exact absurd hrd (by simp)
          | ok blk =>
            simp only []
            cases hwr : vdisk_write s₁.disk bn.toNat
                (setRange blk (Int.tmod curr 1024).toNat
                  (min (1024 - Int.tmod curr 1024) (fillEnd - curr)).toNat 0) with
            | error e =>
              simp only []
              unfold vdisk_write at hwr
              cases hwe : s₁.disk.writeErr bn.toNat with
              | some e' =>
                rw [hwe] at hwr
                exact (Except.error.inj hwr) ▸ hw₁.2 _ e' hwe
              | none =>
                rw [hwe] at hwr
                exact absurd hwr (by simp)
            | ok d =>
              simp only []
              unfold vdisk_write at hwr
              cases hwe : s₁.disk.writeErr bn.toNat with
              | some e' =>
                rw [hwe] at hwr
                exact absurd hwr (by simp)
              | none =>
                rw [hwe] at hwr
                have hd' : d = { s₁.disk with blocks := fun m => if m = bn.toNat then setRange blk (Int.tmod curr 1024).toNat (min (1024 - Int.tmod curr 1024) (fillEnd - curr)).toNat 0 else s₁.disk.blocks m } := (Except.ok.inj hwr).symm
                subst hd'
                have hfr₂ : FillFrame nib s { s₁ with disk := { s₁.disk with blocks := fun m => if m = bn.toNat then setRange blk (Int.tmod curr 1024).toNat (min (1024 - Int.tmod curr 1024) (fillEnd - curr)).toNat 0 else s₁.disk.blocks m } } := by
                  refine fillFrame_trans hfr ⟨rfl, rfl, rfl, rfl, fun b hb => ?_⟩
                  show (if b = bn.toNat then _ else s₁.disk.blocks b) = s₁.disk.blocks b
                  rw [if_neg (by omega)]
                refine fillGood_mono hfr₂ (ih _ ino₁ (curr + min (1024 - Int.tmod curr 1024)
                    (fillEnd - curr)) ?_ ?_ hdo ?_ (by omega))
                · show s₁.disk_mounted = true
                  rw [hfr.1]
                  exact hm
                · exact ⟨fun n e he => hw₁.1 n e he, fun n e he => hw₁.2 n e he⟩
                · show s₁.superblock.num_inode_blocks = nib
                  rw [hfr.2.1]
                  exact hnib
        · rw [if_neg hcond]
          simp only []
          cases hwr : vdisk_write s₁.disk bn.toNat
              (setRange zeroBlock (Int.tmod curr 1024).toNat
                (min (1024 - Int.tmod curr 1024) (fillEnd - curr)).toNat 0) with
          | error e =>
            simp only []
            unfold vdisk_write at hwr
            cases hwe : s₁.disk.writeErr bn.toNat with
            | some e' =>
              rw [hwe] at hwr
              exact (Except.error.inj hwr) ▸ hw₁.2 _ e' hwe
            | none =>
              rw [hwe] at hwr
              exact absurd hwr (by simp)
          | ok d =>
            simp only []
            unfold vdisk_write at hwr
            cases hwe : s₁.disk.writeErr bn.toNat with
            | some e' =>
              rw [hwe] at hwr
              exact absurd hwr (by simp)
            | none =>
              rw [hwe] at hwr
              have hd' : d = { s₁.disk with blocks := fun m => if m = bn.toNat then setRange zeroBlock (Int.tmod curr 1024).toNat (min (1024 - Int.tmod curr 1024) (fillEnd - curr)).toNat 0 else s₁.disk.blocks m } := (Except.ok.inj hwr).symm
              subst hd'
              have hfr₂ : FillFrame nib s { s₁ with disk := { s₁.disk with blocks := fun m => if m = bn.toNat then setRange zeroBlock (Int.tmod curr 1024).toNat (min (1024 - Int.tmod curr 1024) (fillEnd - curr)).toNat 0 else s₁.disk.blocks m } } := by
                refine fillFrame_trans hfr ⟨rfl, rfl, rfl, rfl, fun b hb => ?_⟩
                show (if b = bn.toNat then _ else s₁.disk.blocks b) = s₁.disk.blocks b
                rw [if_neg (by omega)]
              refine fillGood_mono hfr₂ (ih _ ino₁ (curr + min (1024 - Int.tmod curr 1024)
                  (fillEnd - curr)) ?_ ?_ hdo ?_ (by omega))
              · show s₁.disk_mounted = true
                rw [hfr.1]
                exact hm
              · exact ⟨fun n e he => hw₁.1 n e he, fun n e he => hw₁.2 n e he⟩
              · show s₁.superblock.num_inode_blocks = nib
                rw [hfr.2.1]
                exact hnib

set_option maxRecDepth 4000 in
/-- C3 (counterexample): `write(0, buf, 0, 5)` on a fresh inode of size 0
returns 0 and the sparse-fill phase ran (block 2 was allocated in the
bitmap), yet the on-disk inode record still has `size = 0`: with `len = 0`
the enlarged size is *not* persisted, because step 7's checkpoint only
fires when `current_offset` exceeds the in-memory size — which was already
raised to `offset` after the fill. -/
theorem C3_counterexample :
    (write sPlain 0 [] 0 5).1 = 0 ∧
    (inodeAt (write sPlain 0 [] 0 5).2.disk 0).size = 0 ∧
    bmGet (write sPlain 0 [] 0 5).2 2 = 1 := by
  exact ⟨by decide, by decide, by decide⟩

/-- C3 (amended): for a `len = 0` write at `0 ≤ offset ≤ 4096` strictly
beyond the current size (direct region, sane direct pointers), the result is
never positive, and a result of 0 leaves the on-disk inode record — in
particular its `size` field — exactly as before, still strictly below
`offset`: the claim's "enlarged size persisted" clause is false, nothing of
the record reaches the disk on the successful path. -/
theorem C3_amended (s : FSState) (i : Int) (ino : Inode) (nib : Nat)
    (data : List Nat) (offset : Int) (r : Int) (s' : FSState)
    (hri : read_inode s i = .ok ino) (hv : ¬ino.valid = 0)
    (hw : VDiskWf s.disk) (hsane : SaneGeometry s)
    (hnib : s.superblock.num_inode_blocks = nib) (hd : DirectsOK nib ino)
    (hoff0 : 0 ≤ offset) (hoff4 : offset ≤ 4096)
    (hgrow : ino.size < intToUint32 offset)
    (heq : write s i data 0 offset = (r, s')) :
    r ≤ 0 ∧ (r = 0 → read_inode s' i = .ok ino ∧ (ino.size : Int) < offset) := by
  obtain ⟨hm, hi0, hilt, hre, hino⟩ := read_inode_ok_elim hri
  have hIU : intToUint32 offset = offset.toNat := intToUint32_eq hoff0 (by omega)
  have hsz : ino.size < 4096 := by rw [hIU] at hgrow; omega
  have ht32 : toInt32 ino.size = (ino.size : Int) := toInt32_eq (by omega)
  have hc0 : 0 ≤ toInt32 ino.size := by rw [ht32]; omega
  unfold write at heq
  rw [if_neg (show ¬((!s.disk_mounted) = true) by simp [hm])] at heq
  rw [if_neg (by omega)] at heq
  rw [hri] at heq
  simp only [] at heq
  rw [if_neg hv] at heq
  rw [if_pos hgrow] at heq
  have hspec := @fillLoop_spec nib i offset hoff4 ((offset - toInt32 ino.size).toNat)
    s ino (toInt32 ino.size) hm hw hd hnib hc0
  cases hfl : fillLoop i offset ((offset - toInt32 ino.size).toNat) s ino
      (toInt32 ino.size) with
  | error p =>
    rcases p with ⟨e, s₂⟩
    rw [hfl] at heq hspec
    have he : e < 0 := hspec
    simp only [Prod.mk.injEq] at heq
    obtain ⟨h1, h2⟩ := heq
    exact ⟨by omega, fun hr0 => absurd hr0 (by omega)⟩
  | ok p =>
    rcases p with ⟨ino₂, s₂⟩
    rw [hfl] at heq hspec
    have hfr : FillFrame nib s s₂ := hspec
    simp only [] at heq
    rw [show ((0 : Int).toNat) = 0 from rfl] at heq
    simp only [dataLoop] at heq
    rw [if_neg (show ¬(intToUint32 offset >
        ({ ino₂ with size := intToUint32 offset } : Inode).size)
      from fun hlt => lt_irrefl _ hlt)] at heq
    simp only [Prod.mk.injEq] at heq
    obtain ⟨h1, h2⟩ := heq
    refine ⟨by omega, fun _ => ⟨?_, ?_⟩⟩
    · rw [← h2]
      have hm₂ : s₂.disk_mounted = true := by rw [hfr.1]; exact hm
      have hmax₂ : maxInodes s₂ = maxInodes s := by unfold maxInodes; rw [hfr.2.1]
      have hre₂ : s₂.disk.readErr (1 + i.toNat / 32) = none := by
        rw [hfr.2.2.1]; exact hre
      rw [read_inode_ok hm₂ hi0 (by omega) hre₂]
      have htb := table_block_le hsane (show i.toNat < maxInodes s by omega)
      have hblk : s₂.disk.blocks (1 + i.toNat / 32) = s.disk.blocks (1 + i.toNat / 32) :=
        hfr.2.2.2.2 _ (by omega)
      rw [hino]
      unfold inodeAt
      rw [hblk]
    · rw [hIU] at hgrow
      omega

/-- Witness for the amended C3 at `sPlain` (inode 0, size 0, `offset = 5`,
`len = 0`). -/
theorem C3_amended_witness :
    (write sPlain 0 [] 0 5).1 ≤ 0 ∧
    ((write sPlain 0 [] 0 5).1 = 0 →
      read_inode (write sPlain 0 [] 0 5).2 0 = .ok (inodeAt sPlain.disk 0) ∧
      ((inodeAt sPlain.disk 0).size : Int) < 5) :=
  C3_amended sPlain 0 (inodeAt sPlain.disk 0) 1 [] 5 (write sPlain 0 [] 0 5).1
    (write sPlain 0 [] 0 5).2 rfl (by decide)
    ⟨fun n e h => Option.noConfusion h, fun n e h => Option.noConfusion h⟩
    (by unfold SaneGeometry; decide) rfl
    ⟨0, 0, 0, 0, by decide, Or.inl rfl, Or.inl rfl, Or.inl rfl, Or.inl rfl⟩
    (by decide) (by decide) (by decide) rfl

end SSFS
